import Mathlib

/-!
# Verification of the resilient content-acquisition pipeline

Shallow embedding of the core scraping pipeline of the repository:

* `backend/core/scraping_cache.py`       — `ScrapingCache` (LRU + TTL cache)
* `backend/core/hybrid_scraper_v2.py`    — `HybridScraperV2`
  (`find_working_url`, `scrape_intelligent`, `_scrape_basic`,
   `_scrape_with_browser_pool`, `_extract_keywords_smart`)
* `backend/api/analyze_stream.py`        — `stream_analysis_progress`
  (the batch driver) and `_get_error_suggestion`.

External effects (the HTTP client, the headless browser, BeautifulSoup
parsing, the OpenAI classifier) are modelled as oracle functions supplied in
an environment record; the control flow, all error-message strings, all
thresholds and the cache data structure are translated line by line from the
Python source.  Wall-clock durations are irrelevant to every claim and are
modelled as the constant `0`; timestamps used by the cache TTL logic are
explicit `Nat` parameters (`now`).
-/

/-! ## String helpers

Python strings are sequences of characters; the handful of string
operations the pipeline uses (`in`, `lower`, `startswith`, `replace`,
`split`, slicing) are modelled as plain recursions over the character list
`String.data`, mirroring their Python semantics. -/

/-- Is the first list a prefix of the second? (Python `startswith`.) -/
def listPrefixOf : List Char → List Char → Bool
  | [], _ => true
  | _ :: _, [] => false
  | a :: as, b :: bs => a == b && listPrefixOf as bs

/-- Does `pat` occur as a contiguous sublist? -/
def hasSubstr (pat : List Char) : List Char → Bool
  | [] => listPrefixOf pat []
  | c :: t => listPrefixOf pat (c :: t) || hasSubstr pat t

/-- The Python substring test `pat in s` (for non-empty `pat`). -/
def containsSub (s pat : String) : Bool := hasSubstr pat.data s.data

/-- Python `s.lower()`. -/
def strToLower (s : String) : String := String.mk (s.data.map Char.toLower)

/-- Python `s.startswith(pat)`. -/
def strStartsWith (s pat : String) : Bool := listPrefixOf pat.data s.data

/-- Python slicing `s[:n]`. -/
def strTake (n : Nat) (s : String) : String := String.mk (s.data.take n)

/-- Python `s.split(sep)` for a single-character separator. -/
def splitOnChar (sep : Char) : List Char → List (List Char)
  | [] => [[]]
  | c :: t =>
    if c == sep then [] :: splitOnChar sep t
    else
      match splitOnChar sep t with
      | [] => [[c]]
      | h :: r => (c :: h) :: r

/-- Left-to-right non-overlapping deletion of every occurrence of the
non-empty pattern `pat` (Python `s.replace(pat, '')`), with an explicit
fuel equal to the input length so the recursion is structural. -/
def replaceDropAux (pat : List Char) : Nat → List Char → List Char
  | 0, l => l
  | _ + 1, [] => []
  | fuel + 1, c :: t =>
    if listPrefixOf pat (c :: t) then replaceDropAux pat fuel (t.drop (pat.length - 1))
    else c :: replaceDropAux pat fuel t

/-- Python `s.replace(pat, '')` for non-empty `pat`. -/
def replaceDrop (pat : List Char) (l : List Char) : List Char := replaceDropAux pat l.length l

/-- `HybridScraperV2.scrape_intelligent`, lines 210–217: the gate that decides
whether a failed basic fetch escalates to `find_working_url`.  The source
lowercases the error and checks the five substrings below. -/
def should_try_redirect (err : String) : Bool :=
  let e := strToLower err
  containsSub e "ssl" || containsSub e "connection" || containsSub e "connect" ||
    containsSub e "timeout" || containsSub e "cannot connect"

/-! ## `_scrape_basic` (hybrid_scraper_v2.py lines 417–556)

One call makes up to three attempts (the three `aiohttp.TCPConnector`
strategies: cert-verify on, cert-verify off, cert-verify off after a delay).
Each attempt either yields an HTTP response (status + body) or raises a
client exception (SSL / connection / timeout / other), which the loop treats
alike: a non-2xx response and an exception both fall through to the next
connector; on the last attempt a non-2xx response returns the mapped error
and an exception is re-raised into the outer handler, which formats
`"{type}: {msg}"`. -/

inductive BasicAttempt where
  | resp (status : Nat) (body : String)
  | exc (etype : String) (emsg : String)
deriving DecidableEq

/-- Does the attempt yield an HTTP response at all (any status)? -/
def isHttpResponse : BasicAttempt → Bool
  | .resp _ _ => true
  | .exc _ _ => false

/-- `200 <= response.status < 300` (line 468). -/
def is2xx : BasicAttempt → Bool
  | .resp s _ => 200 ≤ s && s < 300
  | .exc _ _ => false

/-- The `error_titles` table of `_scrape_basic` (lines 481–492). -/
def error_title (s : Nat) : String :=
  if s = 400 then "Richiesta Non Valida"
  else if s = 401 then "Autenticazione Richiesta"
  else if s = 403 then "Accesso Negato - Sito Protetto da WAF/Firewall"
  else if s = 404 then "Pagina Non Trovata"
  else if s = 429 then "Troppe Richieste - Rate Limit"
  else if s = 500 then "Errore Server Interno"
  else if s = 502 then "Gateway Non Raggiungibile"
  else if s = 503 then "Servizio Temporaneamente Non Disponibile"
  else if s = 504 then "Timeout Gateway"
  else "Errore HTTP"

/-- `error_msg = f"{error_title} (HTTP {response.status})"` (line 493). -/
def status_error_msg (s : Nat) : String :=
  error_title s ++ " (HTTP " ++ toString s ++ ")"

/-- The outer exception handler of `_scrape_basic` (lines 541–556):
`f"{error_type}: {error_msg}" if error_msg else f"{error_type}: Unknown error"`. -/
def exc_error_msg (etype emsg : String) : String :=
  if emsg = "" then etype ++ ": Unknown error" else etype ++ ": " ++ emsg

/-- Result record of one scraping layer (`ScrapingResult` dataclass,
hybrid_scraper_v2.py lines 23–31; `duration` elided). -/
structure ScrapingResult where
  success : Bool
  content : String := ""
  error : String := ""
  method : String := ""
  content_length : Nat := 0
deriving DecidableEq

/-- A 2xx response on some attempt (lines 468–478). -/
def basic_success : BasicAttempt → ScrapingResult
  | .resp _ b => { success := true, content := b, method := "basic", content_length := b.length }
  | .exc _ _ => { success := false, method := "basic" }

/-- What the last (3rd) attempt returns when it is not a 2xx response:
the mapped status error (lines 503–509) or the re-raised exception caught by
the outer handler (lines 511–556). -/
def basic_final_failure : BasicAttempt → ScrapingResult
  | .resp s _ => { success := false, error := status_error_msg s, method := "basic" }
  | .exc t m => { success := false, error := exc_error_msg t m, method := "basic" }

/-- The connector loop of `_scrape_basic` (lines 450–539).  Returns the
`ScrapingResult` together with the number of attempts actually made.  The
`[]` case corresponds to the unreachable fall-through after the loop
(line 534, `"All HTTP connector methods failed"`). -/
def runBasic : List BasicAttempt → ScrapingResult × Nat
  | [] => ({ success := false, error := "All HTTP connector methods failed", method := "basic" }, 0)
  | [a] => (if is2xx a then basic_success a else basic_final_failure a, 1)
  | a :: b :: rest =>
    if is2xx a then (basic_success a, 1)
    else ((runBasic (b :: rest)).1, (runBasic (b :: rest)).2 + 1)

/-- `HybridScraperV2._scrape_basic` applied to its three connector attempts. -/
def scrape_basic (attempts : List BasicAttempt) : ScrapingResult :=
  (runBasic attempts).1

/-- Number of connection strategies actually tried by one `_scrape_basic`
call whose three attempts behave as given. -/
def scrape_basic_used (a0 a1 a2 : BasicAttempt) : Nat :=
  (runBasic [a0, a1, a2]).2

/-! ## `_scrape_with_browser_pool` (lines 307–372) -/

/-- Outcome of `browser_pool.get_session` + `browser_pool.scrape_with_session`
for one URL (the browser engine is an external collaborator). -/
inductive BrowserOutcome where
  | noSession
  | content (c : String)
  | timeout
  | exc (msg : String)
deriving DecidableEq

/-- `HybridScraperV2._scrape_with_browser_pool`, translated branch by branch. -/
def scrape_with_browser_pool (pool_initialized : Bool)
    (browser : String → BrowserOutcome) (url : String) : ScrapingResult :=
  if pool_initialized = false then
    { success := false, error := "Browser pool not initialized (resource protection)",
      method := "browser_pool" }
  else
    match browser url with
    | .noSession =>
        { success := false, error := "Browser pool not available", method := "browser_pool" }
    | .content c =>
        if 500 < c.length then
          { success := true, content := c, method := "browser_pool", content_length := c.length }
        else
          { success := false, error := "Insufficient content: " ++ toString c.length ++ " chars",
            method := "browser_pool" }
    | .timeout =>
        { success := false, error := "Browser pool timeout (15s)", method := "browser_pool" }
    | .exc m => { success := false, error := m, method := "browser_pool" }

/-! ## The result dictionary

`scrape_intelligent` returns plain Python dicts.  All keys ever produced by
the function (success shape of `_extract_keywords_smart`, its
`extraction_failed` shape, the all-methods-failed shape, plus the
`from_cache` / `redirected_url` keys added by the orchestrator) are fields
here; keys absent on a given code path are `none` / defaults.  The
per-keyword frequency/relevance metadata is projected to the keyword string
list (no claim inspects it). -/

structure ResultDict where
  url : String
  keywords : List String := []
  total_keywords : Option Nat := none
  status : String
  error : Option String := none
  title : Option String := none
  description : Option String := none
  content_length : Option Nat := none
  full_text : Option String := none
  scraping_method : String
  duration : Option Nat := none
  from_cache : Bool := false
  redirected_url : Option String := none
deriving DecidableEq

/-! ## The environment of oracles -/

/-- Per-call environment: network / browser / parser behaviour.
`basic u` is the behaviour of the three connector attempts of one
`_scrape_basic(u)` call; `probe` is the HEAD prober of `find_working_url`
(`none` = request raised, swallowed by the bare `except`); `cleanText` is the
BeautifulSoup pipeline of `_extract_keywords_smart` (error = exception
caught at line 609); `keywordsOf` is `KeywordExtractor._process_text`. -/
structure Env where
  cache_enabled : Bool
  basic : String → List BasicAttempt
  probe : String → Option Nat
  pool_initialized : Bool
  browser : String → BrowserOutcome
  cleanText : String → Except String String
  titleOf : String → String
  descOf : String → String
  keywordsOf : String → List String

/-- `HybridScraperV2._extract_keywords_smart` (lines 558–617). -/
def extract_keywords_smart (env : Env) (content url : String) (max_keywords : Nat) : ResultDict :=
  match env.cleanText content with
  | .error e =>
      { url := url, keywords := [], status := "extraction_failed", error := some e,
        scraping_method := "hybrid_v2" }
  | .ok txt =>
      { url := url
        keywords := (env.keywordsOf txt).take max_keywords
        total_keywords := some (env.keywordsOf txt).length
        status := "success"
        title := some (env.titleOf content)
        description := some (env.descOf content)
        content_length := some txt.length
        full_text := some txt
        scraping_method := "hybrid_v2" }

/-! ## `ScrapingCache` (scraping_cache.py)

The Python object keeps an `OrderedDict` mapping `md5(url)` to
`(result dict, inserted-at timestamp)`.  We model the ordered dict as an
association list, front = oldest insertion (the entry `popitem(last=False)`
removes), and the MD5 key derivation as the function field `hash`
(`_get_url_hash`); every theorem that needs distinct URLs to have distinct
keys says so explicitly. -/

structure Cache where
  hash : String → String
  max_size : Nat
  ttl_seconds : Nat
  entries : List (String × ResultDict × Nat)
  hits : Nat := 0
  misses : Nat := 0
  evictions : Nat := 0

/-- First entry stored under key `k` (how `self.cache[url_hash]` reads). -/
def cache_lookup (c : Cache) (k : String) : Option (ResultDict × Nat) :=
  match c.entries.find? (fun e => e.1 == k) with
  | some e => some e.2
  | none => none

/-- `ScrapingCache.get` (lines 50–84): miss if absent; purge + miss if
`now - timestamp > ttl_seconds`; otherwise move to end (most recently used)
and return the stored dict. -/
def cache_get (now : Nat) (url : String) (c : Cache) : Option ResultDict × Cache :=
  let k := c.hash url
  match c.entries.find? (fun e => e.1 == k) with
  | none => (none, { c with misses := c.misses + 1 })
  | some (_, d, ts) =>
      if c.ttl_seconds < now - ts then
        (none,
          { c with
              entries := c.entries.filter (fun e => e.1 != k)
              misses := c.misses + 1 })
      else
        (some d,
          { c with
              entries := c.entries.filter (fun e => e.1 != k) ++
                c.entries.filter (fun e => e.1 == k)
              hits := c.hits + 1 })

/-- `ScrapingCache.set` (lines 86–106): if the store is full and the key is
new, `popitem(last=False)` drops the oldest entry; then the assignment
overwrites in place (an existing key keeps its position) or appends.
(`popitem` on an empty dict — reachable only with `max_size = 0` — would
raise in Python; here it drops nothing.) -/
def cache_set (now : Nat) (url : String) (d : ResultDict) (c : Cache) : Cache :=
  let k := c.hash url
  let present := c.entries.any (fun e => e.1 == k)
  let entries1 := if c.max_size ≤ c.entries.length ∧ present = false
    then c.entries.drop 1 else c.entries
  let ev := if c.max_size ≤ c.entries.length ∧ present = false then 1 else 0
  let entries2 :=
    if present then entries1.map (fun e => if e.1 == k then (k, d, now) else e)
    else entries1 ++ [(k, d, now)]
  { c with entries := entries2, evictions := c.evictions + ev }

/-- `ScrapingCache.clear` (lines 108–112). -/
def cache_clear (c : Cache) : Cache := { c with entries := [] }

/-- `ScrapingCache.remove` (lines 114–130). -/
def cache_remove (url : String) (c : Cache) : Bool × Cache :=
  let k := c.hash url
  if c.entries.any (fun e => e.1 == k) then
    (true, { c with entries := c.entries.filter (fun e => e.1 != k) })
  else (false, c)

/-! ## `find_working_url` (hybrid_scraper_v2.py lines 62–163) -/

/-- `urlparse(u).netloc` for http/https URLs: the part between the scheme
separator and the first `/`.  A URL with any other (or no) scheme parses to
an empty netloc, exactly as `urlparse` yields for scheme-less strings, and
then falls into the `len(domain_parts) < 2` early return below. -/
def netlocOf (u : String) : String :=
  if strStartsWith u "https://" then String.mk ((u.data.drop 8).takeWhile (fun ch => ch != '/'))
  else if strStartsWith u "http://" then String.mk ((u.data.drop 7).takeWhile (fun ch => ch != '/'))
  else ""

/-- The candidate-generation block of `find_working_url` (lines 76–136),
in source order: www-toggle on the original TLD, regional TLD swaps, common
localized paths, corporate suffixes, and finally the original URL itself.
Returns `[]` when `len(domain_parts) < 2` (the early `return original_url`).
-/
def fwu_variants (original_url : String) : List String :=
  let netloc := netlocOf original_url
  let has_www := strStartsWith netloc "www."
  let domain_parts := (splitOnChar '.' (replaceDrop "www.".data netloc.data)).map String.mk
  if domain_parts.length < 2 then []
  else
    let base_name := domain_parts.headD ""
    let original_tld := domain_parts.getLastD ""
    let www_variants :=
      if has_www then
        ["https://" ++ base_name ++ "." ++ original_tld,
         "http://" ++ base_name ++ "." ++ original_tld]
      else
        ["https://www." ++ base_name ++ "." ++ original_tld,
         "http://www." ++ base_name ++ "." ++ original_tld]
    let eu_tlds := ["eu", "it", "de", "fr", "es", "uk", "com"]
    let eu_variants :=
      (eu_tlds.filter (fun t => t ≠ original_tld)).flatMap (fun tld =>
        ["https://www." ++ base_name ++ "." ++ tld,
         "https://" ++ base_name ++ "." ++ tld,
         "http://www." ++ base_name ++ "." ++ tld,
         "http://" ++ base_name ++ "." ++ tld])
    let common_paths := ["/it/index.aspx", "/en/index.aspx", "/index.aspx",
                         "/it/", "/en/", "/it/home", "/en/home",
                         "/home", "/index.html", "/index.php"]
    let path_variants :=
      common_paths.flatMap (fun path =>
        if has_www then
          ["https://www." ++ base_name ++ "." ++ original_tld ++ path,
           "http://www." ++ base_name ++ "." ++ original_tld ++ path]
        else
          ["https://" ++ base_name ++ "." ++ original_tld ++ path,
           "http://" ++ base_name ++ "." ++ original_tld ++ path])
    let common_suffixes := ["-group", "-spa", "-srl", "-ahu", "-hvac", "-tech",
                            "-international", "-europe", "-global"]
    let suffix_variants :=
      common_suffixes.flatMap (fun suffix =>
        ["https://www." ++ base_name ++ suffix ++ "." ++ original_tld,
         "http://www." ++ base_name ++ suffix ++ "." ++ original_tld,
         "https://www." ++ base_name ++ suffix ++ ".eu",
         "http://www." ++ base_name ++ suffix ++ ".eu",
         "https://www." ++ base_name ++ suffix ++ ".com",
         "http://" ++ base_name ++ suffix ++ ".com"])
    www_variants ++ eu_variants ++ path_variants ++ suffix_variants ++ [original_url]

/-- `variants[:60]` (line 141): the list of candidates eligible for probing. -/
def fwu_candidates (original_url : String) : List String :=
  (fwu_variants original_url).take 60

/-- The acceptance test of one HEAD probe (lines 143–153): a response with
status 200 or 503 is "working"; a raised request (`probe = none`) is
swallowed by the bare `except: continue`. -/
def fwu_accept (probe : String → Option Nat) (v : String) : Bool :=
  match probe v with
  | some s => s == 200 || s == 503
  | none => false

/-- `HybridScraperV2.find_working_url`: first accepted candidate, else the
original URL (both the exhausted-list return at line 159 and the outer
exception handler at line 163 return `original_url`; the embedding is a
total function, so no exception can escape). -/
def find_working_url (probe : String → Option Nat) (original_url : String) : String :=
  match (fwu_candidates original_url).find? (fwu_accept probe) with
  | some v => v
  | none => original_url

/-- The candidates actually probed by one `find_working_url` call: the
prefix of `fwu_candidates` up to and including the first accepted one. -/
def fwu_probed (probe : String → Option Nat) (original_url : String) : List String :=
  match (fwu_candidates original_url).findIdx? (fwu_accept probe) with
  | some i => (fwu_candidates original_url).take (i + 1)
  | none => fwu_candidates original_url

/-! ## `scrape_intelligent` (hybrid_scraper_v2.py lines 166–305) -/

/-- Instrumentation of one orchestrator call: how many times each layer was
invoked, whether and under which URL the result was stored in the cache,
whether the success came from the degraded pool-unavailable path
(lines 256–266) or the browser pool, and the raw length of the winning
fetched document. -/
structure Trace where
  basic_calls : Nat := 0
  browser_calls : Nat := 0
  resolver_calls : Nat := 0
  storedKey : Option String := none
  degraded : Bool := false
  viaBrowser : Bool := false
  winLen : Option Nat := none
deriving DecidableEq

/-- `cached_result['from_cache'] = True` (line 198) applied to a dict. -/
def with_from_cache (d : ResultDict) : ResultDict := { d with from_cache := true }

/-- In-place mutation of the dict stored under key `k` (Python aliasing:
the dict returned by `ScrapingCache.get` *is* the stored object, so
line 198 also rewrites the cache's copy).  Timestamps keep their value. -/
def cache_mutate (k : String) (d : ResultDict) (c : Cache) : Cache :=
  { c with entries := c.entries.map (fun e => if e.1 == k then (e.1, d, e.2.2) else e) }

/-- The tail of `scrape_intelligent` once the (possibly retried) basic
result and the effective URL are fixed: the 1000-char sufficiency check
(line 232), the degraded use-basic-anyway path when the browser pool is
unavailable (lines 256–266), the browser-pool fallback (lines 269–283) and
the all-methods-failed envelope (lines 287–305). -/
def after_basic (env : Env) (c : Cache) (url url2 : String) (result : ScrapingResult)
    (basic_calls resolver_calls max_keywords now : Nat) : ResultDict × Cache × Trace :=
  if result.success = true ∧ 1000 ≤ result.content_length then
    let kd0 := extract_keywords_smart env result.content url2 max_keywords
    let kd := if url2 ≠ url then { kd0 with redirected_url := some url2 } else kd0
    let c2 := if env.cache_enabled then cache_set now url2 kd c else c
    (kd, c2,
      { basic_calls := basic_calls, resolver_calls := resolver_calls,
        storedKey := if env.cache_enabled then some url2 else none,
        winLen := some result.content_length })
  else if env.pool_initialized = false ∧ result.success = true ∧ result.content ≠ "" then
    let kd0 := extract_keywords_smart env result.content url2 max_keywords
    let kd := if url2 ≠ url then { kd0 with redirected_url := some url2 } else kd0
    (kd, c,
      { basic_calls := basic_calls, resolver_calls := resolver_calls,
        degraded := true, winLen := some result.content_length })
  else
    let br := scrape_with_browser_pool env.pool_initialized env.browser url2
    if br.success = true then
      let kd0 := extract_keywords_smart env br.content url2 max_keywords
      let kd := if url2 ≠ url then { kd0 with redirected_url := some url2 } else kd0
      let c2 := if env.cache_enabled then cache_set now url2 kd c else c
      (kd, c2,
        { basic_calls := basic_calls, browser_calls := 1, resolver_calls := resolver_calls,
          storedKey := if env.cache_enabled then some url2 else none,
          viaBrowser := true, winLen := some br.content_length })
    else
      ({ url := url, keywords := [], status := "failed",
         error := some ("All scraping methods failed. Basic HTTP: " ++ result.error ++
           ", Browser Pool: " ++ br.error),
         scraping_method := "none", duration := some 0 },
       c,
       { basic_calls := basic_calls, browser_calls := 1, resolver_calls := resolver_calls })

/-- The pre-`after_basic` phase of the orchestrator: Layer 1 basic HTTP
(line 205) and the alternate-URL escalation on connectivity/TLS-class
errors (lines 208–229), after which `after_basic` takes over with the
(possibly retried) result and effective URL. -/
def scrape_after_cache (env : Env) (c : Cache) (url : String) (max_keywords : Nat)
    (now : Nat) : ResultDict × Cache × Trace :=
  let r1 := scrape_basic (env.basic url)
  let redirect_needed := !r1.success && should_try_redirect r1.error
  let alt := if redirect_needed then find_working_url env.probe url else url
  let retried := redirect_needed && alt != url
  let url2 := if retried then alt else url
  let result := if retried then scrape_basic (env.basic alt) else r1
  after_basic env c url url2 result (if retried then 2 else 1)
    (if redirect_needed then 1 else 0) max_keywords now

/-- `HybridScraperV2.scrape_intelligent`.  The cache check (lines 192–201):
on a hit the stored dict itself receives `from_cache = True` (aliasing,
modelled by `cache_mutate`) and is returned with no layer invoked. -/
def scrape_intelligent (env : Env) (c : Cache) (url : String) (max_keywords : Nat)
    (bypass_cache : Bool) (now : Nat) : ResultDict × Cache × Trace :=
  if env.cache_enabled = true ∧ bypass_cache = false then
    match cache_get now url c with
    | (some d, c1) =>
        let d2 := with_from_cache d
        (d2, cache_mutate (c.hash url) d2 c1, {})
    | (none, c1) => scrape_after_cache env c1 url max_keywords now
  else scrape_after_cache env c url max_keywords now

/-! ## The batch driver (`analyze_stream.py`)

`stream_analysis_progress` runs wave 1 (parallel wget) and wave 2
(fallback + AI classification) and yields server-sent events.  The wave-2
coroutines are awaited one by one in input order (they are bare coroutines,
not scheduled tasks), so wave-2 events follow the input order.  Wget, the
hybrid-scraper fallback and the OpenAI classifier are external
collaborators, modelled as oracles. -/

/-- `_get_error_suggestion` (analyze_stream.py lines 31–48). -/
def get_error_suggestion (msg : String) : String :=
  let l := strToLower msg
  if containsSub l "timeout" || containsSub l "timed out" then
    "Sito troppo lento o bloccato - riprova manualmente o contatta il sito"
  else if containsSub msg "403" || containsSub msg "401" then
    "Sito protetto da WAF/firewall - necessario accesso manuale o credenziali"
  else if containsSub l "connection" || containsSub l "connect" then
    "Sito temporaneamente irraggiungibile - verifica che sia online"
  else if containsSub l "ssl" || containsSub l "certificate" then
    "Problemi certificato SSL - sito potrebbe avere configurazione errata"
  else if containsSub msg "404" then
    "Pagina non trovata - verifica URL corretto"
  else if containsSub msg "500" || containsSub msg "502" || containsSub msg "503" then
    "Errore server del sito - riprova più tardi"
  else
    "Errore generico - verifica manualmente il sito"

/-- One entry of `failed_sites` (timestamp string elided). -/
structure FailedSite where
  url : String
  error : String
  suggestion : String
deriving DecidableEq

/-- Batch-level oracles: per-URL wget success, the hybrid-scraper fallback
(`some err` = the fallback did not reach `status == 'success'`, with `err`
the error it reported — including the `'Timeout dopo {N}s'` shape produced
by `asyncio.wait_for` expiry), and the AI classification
(`Except`: an exception caught by the outer handler, or a score). -/
structure BatchEnv where
  wgetSuccess : String → Bool
  fallback : String → Option String
  classify : String → Except String Nat

/-- The events yielded by `stream_analysis_progress`.  `failedEv` is the
per-URL `failed` event the specification describes; it is part of the event
vocabulary so the spec's claim can be stated, but (as proved below) the
source never emits it.  Payloads are projected to the fields the claims
inspect. -/
inductive SEvent where
  | started (total : Nat)
  | wave1Started
  | wave1Progress (current total : Nat) (status : String)
  | wave1Complete (successful failedN : Nat)
  | wave2Started
  | progressEv (url : String) (current total : Nat)
  | resultEv (url : String) (score : Nat)
  | failedEv (url : String) (error suggestion : String)
  | completeEv (ms : List (String × Nat)) (failed_sites : List FailedSite)
deriving DecidableEq

def isFailedEv : SEvent → Bool
  | .failedEv _ _ _ => true
  | _ => false

def isResultEv : SEvent → Bool
  | .resultEv _ _ => true
  | _ => false

def isProgressEv : SEvent → Bool
  | .progressEv _ _ _ => true
  | _ => false

def isCompleteEv : SEvent → Bool
  | .completeEv _ _ => true
  | _ => false

/-- The AI-classification step shared by both branches of
`process_competitor_with_ai` (lines 338–415): an exception anywhere in the
body is caught by the outer handler, which records a failed site with a
truncated error and a derived suggestion and returns `None`. -/
def process_classify (benv : BatchEnv) (url : String) : Except FailedSite (String × Nat) :=
  match benv.classify url with
  | .error e => .error ⟨url, strTake 100 e, get_error_suggestion e⟩
  | .ok score => .ok (url, score)

/-- `process_competitor_with_ai` (lines 290–415): on wget failure, run the
hybrid-scraper fallback; if it does not reach `status == 'success'`, record
a failed site (error truncated to 100 chars, suggestion derived) and skip;
otherwise classify. -/
def process_one (benv : BatchEnv) (url : String) : Except FailedSite (String × Nat) :=
  if benv.wgetSuccess url = false then
    match benv.fallback url with
    | some err => .error ⟨url, strTake 100 err, get_error_suggestion err⟩
    | none => process_classify benv url
  else process_classify benv url

/-- The wave-2 loop (lines 417–446): for each URL in input order, a success
yields a `progress`+`result` pair and a match; a failure yields *no* event
and appends a failed site.  Returns (events, matches, failed sites). -/
def wave2_fold (benv : BatchEnv) (total : Nat) :
    List String → Nat → List SEvent × List (String × Nat) × List FailedSite
  | [], _ => ([], [], [])
  | u :: us, idx =>
    match process_one benv u with
    | .ok m =>
        let rest := wave2_fold benv total us (idx + 1)
        (.progressEv u idx total :: .resultEv u m.2 :: rest.1, m :: rest.2.1, rest.2.2)
    | .error f =>
        let rest := wave2_fold benv total us (idx + 1)
        (rest.1, rest.2.1, f :: rest.2.2)

/-- Stable descending insertion of a match by score. -/
def insertDesc (m : String × Nat) : List (String × Nat) → List (String × Nat)
  | [] => [m]
  | x :: t => if x.2 ≤ m.2 then m :: x :: t else x :: insertDesc m t

/-- `matches.sort(key=lambda x: x.score, reverse=True)` (line 450):
a stable sort by descending score, modelled as insertion sort (Python's
`list.sort` is stable; only stability and the descending key matter). -/
def sortMatches : List (String × Nat) → List (String × Nat)
  | [] => []
  | m :: rest => insertDesc m (sortMatches rest)

/-- The wave-1 live-progress events (lines 212–273), one per URL. -/
def wave1_events (benv : BatchEnv) (total : Nat) : List String → Nat → List SEvent
  | [], _ => []
  | u :: us, cur =>
    .wave1Progress (cur + 1) total (if benv.wgetSuccess u then "success" else "failed") ::
      wave1_events benv total us (cur + 1)

/-- `stream_analysis_progress` (lines 168–532): the full emitted event
sequence of one batch. -/
def stream_events (benv : BatchEnv) (urls : List String) : List SEvent :=
  let total := urls.length
  let succN := (urls.filter (fun u => benv.wgetSuccess u)).length
  let failN := (urls.filter (fun u => !(benv.wgetSuccess u))).length
  let w2 := wave2_fold benv total urls 1
  [.started total, .wave1Started]
    ++ wave1_events benv total urls 0
    ++ [.wave1Complete succN failN, .wave2Started]
    ++ w2.1
    ++ [.completeEv (sortMatches w2.2.1) w2.2.2]

/-! # Claims -/

/-! ## C3 — connection-strategy loop of `_scrape_basic` -/

/-- C3, counterexample.  The claim says `_scrape_basic` "stops at the first
strategy that yields any HTTP response, regardless of that response's status
code".  Here the first strategy yields an HTTP 403 response, yet the loop
goes on and makes a second attempt (`continue` at line 510 of
hybrid_scraper_v2.py runs for non-2xx responses too). -/
theorem c3_counterexample :
    isHttpResponse (BasicAttempt.resp 403 "") = true ∧
    scrape_basic_used (BasicAttempt.resp 403 "") (BasicAttempt.resp 200 "ok")
      (BasicAttempt.resp 200 "ok") = 2 := by
  exact ⟨rfl, by decide⟩

/-- C3, amended.  For every URL, `_scrape_basic` tries at most three
connection strategies in the order cert-verify-on, cert-verify-off,
cert-verify-off-after-delay, and stops at the first strategy whose response
has a 2xx status; a non-2xx response — like an exception — falls through to
the next strategy, and the overall call succeeds iff some strategy got a
2xx response. -/
theorem c3_amended (a0 a1 a2 : BasicAttempt) :
    scrape_basic_used a0 a1 a2 = (if is2xx a0 = true then 1 else if is2xx a1 = true then 2 else 3) ∧
    (scrape_basic [a0, a1, a2]).success = (is2xx a0 || is2xx a1 || is2xx a2) := by
  cases a0 <;> cases a1 <;> cases a2 <;>
    simp [scrape_basic_used, scrape_basic, runBasic, is2xx, basic_success,
      basic_final_failure] <;>
    split_ifs <;> simp_all

/-! ## C7 / C8 — `find_working_url` -/

/-- Upper bound on the candidate list: `variants[:60]`. -/
theorem fwu_candidates_length_le (url : String) : (fwu_candidates url).length ≤ 60 := by
  simp [fwu_candidates, List.length_take]

/-- C7.  `find_working_url` is a total function (the embedding of a Python
function whose whole body sits in a `try/except` returning `original_url`,
so no exception escapes), and whenever no generated candidate answers its
HEAD probe with HTTP 200 or 503 — including the case where candidate
generation bails out (`len(domain_parts) < 2`, giving an empty candidate
list) and the case where every probe raises (`probe = none`) — it returns
the original URL unchanged. -/
theorem c7_fwu_returns_original (probe : String → Option Nat) (url : String)
    (h : ∀ v ∈ fwu_candidates url, fwu_accept probe v = false) :
    find_working_url probe url = url := by
  have h2 : (fwu_candidates url).find? (fwu_accept probe) = none :=
    List.find?_eq_none.mpr (fun v hv => by simp [h v hv])
  simp [find_working_url, h2]

/-- C7, witness: with a prober that always raises, the original URL comes
back unchanged. -/
theorem c7_witness :
    find_working_url (fun _ => none) "https://example.com" = "https://example.com" :=
  c7_fwu_returns_original _ _ (fun _ _ => rfl)

/-- C8.  A single `find_working_url` call probes at most 60 candidates,
even when every candidate is unreachable: the generated variant list is
truncated to `variants[:60]` before the probe loop. -/
theorem c8_probe_cap (probe : String → Option Nat) (url : String) :
    (fwu_probed probe url).length ≤ 60 := by
  have hc := fwu_candidates_length_le url
  cases h : (fwu_candidates url).findIdx? (fwu_accept probe) with
  | none => simpa [fwu_probed, h] using hc
  | some i =>
      simp only [fwu_probed, h, List.length_take]
      exact le_trans (Nat.min_le_right _ _) hc

/-! ## C4 — alternate-URL gating -/

/-- The orchestrator consults the resolver exactly when the (final) basic
fetch failed and its error message passes the `should_try_redirect`
substring gate — independently of everything that happens afterwards. -/
theorem after_basic_resolver_calls (env : Env) (c : Cache) (url url2 : String)
    (r : ScrapingResult) (bc rc mk now : Nat) :
    (after_basic env c url url2 r bc rc mk now).2.2.resolver_calls = rc := by
  unfold after_basic
  dsimp only
  split_ifs <;> rfl

theorem resolver_calls_spec (env : Env) (c : Cache) (url : String) (mk now : Nat) :
    (scrape_after_cache env c url mk now).2.2.resolver_calls =
      (if (!(scrape_basic (env.basic url)).success &&
            should_try_redirect (scrape_basic (env.basic url)).error) = true then 1 else 0) := by
  unfold scrape_after_cache
  dsimp only
  rw [after_basic_resolver_calls]

/-- Three identical non-2xx responses make `_scrape_basic` return the
mapped status failure. -/
theorem scrape_basic_all_non2xx (a : BasicAttempt) (h : is2xx a = false) :
    scrape_basic [a, a, a] = basic_final_failure a := by
  simp [scrape_basic, runBasic, h]

/-- When every attempt fails, `_scrape_basic` reports the failure of the
*last* attempt (the fall-through of the connector loop). -/
theorem scrape_basic_last : ∀ (pre : List BasicAttempt) (a : BasicAttempt),
    (∀ x ∈ pre ++ [a], is2xx x = false) →
    scrape_basic (pre ++ [a]) = basic_final_failure a
  | [], a, hf => by
      simp [scrape_basic, runBasic, hf a (by simp)]
  | [x], a, hf => by
      simp [scrape_basic, runBasic, hf x (by simp), hf a (by simp)]
  | x :: y :: t, a, hf => by
      have ih := scrape_basic_last (y :: t) a
        (fun z hz => hf z (List.mem_cons_of_mem x hz))
      have hx : is2xx x = false := hf x (by simp)
      simp only [List.cons_append] at ih ⊢
      simpa [scrape_basic, runBasic, hx] using ih

/-- The ten decimal digit characters. -/
def digitChars : List Char := ['0','1','2','3','4','5','6','7','8','9']

theorem toDigitsCore_mem (fuel : Nat) : ∀ (n : Nat) (ds : List Char),
    (∀ c ∈ ds, c ∈ digitChars) → ∀ c ∈ Nat.toDigitsCore 10 fuel n ds, c ∈ digitChars := by
  induction fuel with
  | zero =>
      intro n ds hds c hc
      rw [Nat.toDigitsCore] at hc
      exact hds c hc
  | succ fuel ih =>
      intro n ds hds c hc
      rw [Nat.toDigitsCore] at hc
      have hdig : Nat.digitChar (n % 10) ∈ digitChars := by
        have h10 : n % 10 < 10 := Nat.mod_lt _ (by decide)
        revert h10
        generalize n % 10 = m
        intro h10
        interval_cases m <;> decide
      by_cases h0 : n / 10 = 0
      · rw [if_pos h0] at hc
        rcases List.mem_cons.mp hc with rfl | hc
        · exact hdig
        · exact hds c hc
      · rw [if_neg h0] at hc
        refine ih (n / 10) _ ?_ c hc
        intro x hx
        rcases List.mem_cons.mp hx with rfl | hx
        · exact hdig
        · exact hds x hx

/-- Every character of the decimal representation of a `Nat` is a digit. -/
theorem toDigits_mem (n : Nat) : ∀ c ∈ Nat.toDigits 10 n, c ∈ digitChars :=
  toDigitsCore_mem (n + 1) n [] (by intro c hc; exact absurd hc (List.not_mem_nil c))

theorem toDigitsCore_ne_nil (fuel : Nat) : ∀ (n : Nat) (ds : List Char),
    ds ≠ [] → Nat.toDigitsCore 10 fuel n ds ≠ [] := by
  induction fuel with
  | zero =>
      intro n ds hds
      rw [Nat.toDigitsCore]
      exact hds
  | succ fuel ih =>
      intro n ds hds
      rw [Nat.toDigitsCore]
      by_cases h0 : n / 10 = 0
      · rw [if_pos h0]
        exact List.cons_ne_nil _ _
      · rw [if_neg h0]
        exact ih (n / 10) _ (List.cons_ne_nil _ _)

theorem toDigits_ne_nil (n : Nat) : Nat.toDigits 10 n ≠ [] := by
  show Nat.toDigitsCore 10 (n + 1) n [] ≠ []
  rw [Nat.toDigitsCore]
  by_cases h0 : n / 10 = 0
  · rw [if_pos h0]
    exact List.cons_ne_nil _ _
  · rw [if_neg h0]
    exact toDigitsCore_ne_nil n (n / 10) _ (List.cons_ne_nil _ _)

theorem toLower_digit : ∀ c ∈ digitChars, c.toLower ∈ digitChars := by decide

/-- A prefix match cannot reach past a character the pattern does not
contain. -/
theorem listPrefixOf_sep (d : Char) : ∀ (pat l rest : List Char), d ∉ pat →
    listPrefixOf pat (l ++ d :: rest) = listPrefixOf pat l
  | [], _, _, _ => by simp [listPrefixOf]
  | p :: pt, [], rest, hd => by
      have hpd : (p == d) = false := by
        simp only [List.mem_cons, not_or] at hd
        exact beq_eq_false_iff_ne.mpr (Ne.symm hd.1)
      simp [listPrefixOf, hpd]
  | p :: pt, x :: l, rest, hd => by
      simp only [List.cons_append, listPrefixOf, List.append_eq]
      rw [listPrefixOf_sep d pt l rest (fun h => hd (List.mem_cons_of_mem p h))]

/-- An occurrence of `pat` cannot straddle a character it does not
contain. -/
theorem hasSubstr_sep (pat : List Char) (d : Char) (hd : d ∉ pat) :
    ∀ (P rest : List Char),
      hasSubstr pat (P ++ d :: rest) = (hasSubstr pat P || hasSubstr pat rest)
  | [], rest => by
      cases pat with
      | nil => simp [hasSubstr, listPrefixOf]
      | cons p pt =>
          have hpd : (p == d) = false := by
            simp only [List.mem_cons, not_or] at hd
            exact beq_eq_false_iff_ne.mpr (Ne.symm hd.1)
          simp [hasSubstr, listPrefixOf, hpd]
  | x :: P, rest => by
      have e1 : (x :: P) ++ d :: rest = x :: (P ++ d :: rest) := rfl
      rw [e1, hasSubstr]
      rw [show x :: (P ++ d :: rest) = (x :: P) ++ d :: rest from rfl]
      rw [listPrefixOf_sep d pat (x :: P) rest hd]
      rw [hasSubstr_sep pat d hd P rest]
      conv_rhs => rw [hasSubstr]
      rw [Bool.or_assoc]

/-- Skipping a block of characters none of which occurs in the (non-empty)
pattern. -/
theorem hasSubstr_skip (pat : List Char) (hne : pat ≠ []) :
    ∀ (D : List Char), (∀ d ∈ D, d ∉ pat) →
      ∀ rest, hasSubstr pat (D ++ rest) = hasSubstr pat rest
  | [], _, rest => rfl
  | d :: D, hD, rest => by
      rw [show (d :: D) ++ rest = [] ++ d :: (D ++ rest) from rfl]
      rw [hasSubstr_sep pat d (hD d (List.mem_cons_self d D)) [] (D ++ rest)]
      rw [hasSubstr_skip pat hne D (fun x hx => hD x (List.mem_cons_of_mem d hx)) rest]
      cases pat with
      | nil => exact absurd rfl hne
      | cons p pt => simp [hasSubstr, listPrefixOf]

/-- An all-digit block is transparent to a pattern that contains no
digit. -/
theorem hasSubstr_bridge (pat P D rest : List Char) (hne : pat ≠ [])
    (hD : D ≠ []) (hmem : ∀ d ∈ D, d ∈ digitChars)
    (hdisj : ∀ d ∈ digitChars, d ∉ pat) :
    hasSubstr pat (P ++ (D ++ rest)) = (hasSubstr pat P || hasSubstr pat rest) := by
  cases D with
  | nil => exact absurd rfl hD
  | cons d D =>
      rw [show P ++ ((d :: D) ++ rest) = P ++ d :: (D ++ rest) from rfl]
      rw [hasSubstr_sep pat d (hdisj d (hmem d (List.mem_cons_self d D))) P (D ++ rest)]
      rw [hasSubstr_skip pat hne D
        (fun x hx => hdisj x (hmem x (List.mem_cons_of_mem d hx))) rest]

theorem str_data_append (a b : String) : (a ++ b).data = a.data ++ b.data := rfl

/-- The redirect gate fires on a mapped status error exactly for 504: the
eight named categories never contain a gate substring, `"Timeout Gateway"`
contains `"timeout"`, and for every unmapped status the message
`"Errore HTTP (HTTP s)"` cannot contain one either — the gate substrings
are digit-free, so an occurrence would have to avoid the digit block of
`s`, and neither `"errore http (http "` nor `")"` contains one. -/
theorem should_try_redirect_status (s : Nat) :
    should_try_redirect (status_error_msg s) = (s == 504) := by
  by_cases h504 : s = 504
  · subst h504
    decide
  · have h504b : (s == 504) = false := by simp [h504]
    rw [h504b]
    by_cases hm : s = 400 ∨ s = 401 ∨ s = 403 ∨ s = 404 ∨ s = 429 ∨ s = 500 ∨ s = 502 ∨ s = 503
    · rcases hm with rfl | rfl | rfl | rfl | rfl | rfl | rfl | rfl <;> decide
    · have ht : error_title s = "Errore HTTP" := by
        simp only [not_or] at hm
        unfold error_title
        rw [if_neg hm.1, if_neg hm.2.1, if_neg hm.2.2.1, if_neg hm.2.2.2.1,
          if_neg hm.2.2.2.2.1, if_neg hm.2.2.2.2.2.1, if_neg hm.2.2.2.2.2.2.1,
          if_neg hm.2.2.2.2.2.2.2, if_neg h504]
      unfold status_error_msg
      rw [ht]
      unfold should_try_redirect containsSub strToLower
      have hdata : ("Errore HTTP" ++ " (HTTP " ++ toString s ++ ")").data.map Char.toLower
          = "errore http (http ".data
              ++ ((Nat.toDigits 10 s).map Char.toLower ++ [')']) := by
        rw [show ("Errore HTTP" ++ " (HTTP " ++ toString s ++ ")").data
            = ("Errore HTTP".data ++ " (HTTP ".data) ++ ((toString s).data ++ ")".data) from by
          simp [str_data_append]]
        rw [show (toString s).data = Nat.toDigits 10 s from rfl]
        simp only [List.map_append]
        rw [show ("Errore HTTP".data.map Char.toLower ++ " (HTTP ".data.map Char.toLower)
            = "errore http (http ".data from by decide]
        rw [show ")".data.map Char.toLower = [')'] from by decide]
      simp only [hdata]
      have hmem : ∀ d ∈ (Nat.toDigits 10 s).map Char.toLower, d ∈ digitChars := by
        intro d hd
        rcases List.mem_map.mp hd with ⟨c, hc, rfl⟩
        exact toLower_digit c (toDigits_mem s c hc)
      have hDne : (Nat.toDigits 10 s).map Char.toLower ≠ [] := by
        simp [toDigits_ne_nil s]
      rw [hasSubstr_bridge "ssl".data _ _ _ (by decide) hDne hmem (by decide)]
      rw [hasSubstr_bridge "connection".data _ _ _ (by decide) hDne hmem (by decide)]
      rw [hasSubstr_bridge "connect".data _ _ _ (by decide) hDne hmem (by decide)]
      rw [hasSubstr_bridge "timeout".data _ _ _ (by decide) hDne hmem (by decide)]
      rw [hasSubstr_bridge "cannot connect".data _ _ _ (by decide) hDne hmem (by decide)]
      decide

theorem after_basic_basic_calls (env : Env) (c : Cache) (url url2 : String)
    (r : ScrapingResult) (bc rc mk now : Nat) :
    (after_basic env c url url2 r bc rc mk now).2.2.basic_calls = bc := by
  unfold after_basic
  dsimp only
  split_ifs <;> rfl

/-- Whenever the fetch phase runs at all, the fast HTTP fetcher is invoked
at least once. -/
theorem basic_calls_spec (env : Env) (c : Cache) (url : String) (mk now : Nat) :
    1 ≤ (scrape_after_cache env c url mk now).2.2.basic_calls := by
  unfold scrape_after_cache
  dsimp only
  rw [after_basic_basic_calls]
  split_ifs <;> decide

/-- Every orchestrator call's trace is either the all-zero cache-hit trace
or the trace of the fetch phase on some (TTL-purged) cache. -/
theorem scrape_intelligent_trace (env : Env) (c : Cache) (url : String) (mk : Nat)
    (byp : Bool) (now : Nat) :
    (scrape_intelligent env c url mk byp now).2.2 = ({} : Trace) ∨
    ∃ c2, (scrape_intelligent env c url mk byp now).2.2
        = (scrape_after_cache env c2 url mk now).2.2 := by
  unfold scrape_intelligent
  split_ifs with hc
  · rcases cache_get now url c with ⟨_ | d, c1⟩
    · right
      exact ⟨c1, rfl⟩
    · left
      rfl
  · right
    exact ⟨c, rfl⟩

/-- Shared concrete environment: every basic attempt gets HTTP 504 and the
browser pool is unavailable. -/
def env504 : Env :=
  { cache_enabled := false
    basic := fun _ => [.resp 504 "", .resp 504 "", .resp 504 ""]
    probe := fun _ => none
    pool_initialized := false
    browser := fun _ => .noSession
    cleanText := fun s => .ok s
    titleOf := fun _ => ""
    descOf := fun _ => ""
    keywordsOf := fun _ => [] }

/-- Shared concrete environment: every basic attempt gets HTTP 403. -/
def env403 : Env :=
  { env504 with basic := fun _ => [.resp 403 "", .resp 403 "", .resp 403 ""] }

/-- A fresh empty cache keyed by the URL itself (MD5 is injective on the
URLs of these scenarios, so the identity keying is faithful). -/
def emptyCache : Cache :=
  { hash := fun s => s, max_size := 1000, ttl_seconds := 3600, entries := [] }

/-- C4, counterexample.  The claim says *no* non-2xx HTTP status failure —
"in particular 403 and 404, but also every other status such as 504" —
triggers `find_working_url`.  But a 504 failure is labelled
`"Timeout Gateway (HTTP 504)"`, whose lowercase form contains `"timeout"`,
so the `should_try_redirect` gate fires and the resolver *is* invoked
(1 call, where the claim demands 0). -/
theorem c4_counterexample :
    (scrape_intelligent env504 emptyCache "https://broken.example" 20 false 0).2.2.resolver_calls
      = 1 := by
  have hsi : scrape_intelligent env504 emptyCache "https://broken.example" 20 false 0 =
      scrape_after_cache env504 emptyCache "https://broken.example" 20 0 := by
    unfold scrape_intelligent
    simp [env504]
  rw [hsi, resolver_calls_spec]
  decide

/-- C4, amended.  For every fast-fetch failure whose final connection
attempt returned a non-2xx HTTP status `s` (the earlier attempts having
failed with any mix of non-2xx responses and exceptions), the orchestrator
does not invoke the alternate-URL resolver for any status `s` other
than 504 — mapped to a named category (400, 401, 403, 404, 429, 500, 502,
503) or unmapped (e.g. 304, 418, 520, labelled `"Errore HTTP"`) — with
caching enabled or disabled; HTTP 504 is the one exception: its label
`"Timeout Gateway (HTTP 504)"` matches the `'timeout'` substring of the
connectivity-error gate, so whenever the fast fetch actually ran (no cache
hit) a 504 failure triggers exactly one resolver call. -/
theorem c4_amended (env : Env) (c : Cache) (url : String) (mk : Nat) (byp : Bool)
    (now s : Nat) (b : String) (pre : List BasicAttempt)
    (hb : env.basic url = pre ++ [.resp s b])
    (hfail : ∀ a ∈ env.basic url, is2xx a = false) :
    (s ≠ 504 → (scrape_intelligent env c url mk byp now).2.2.resolver_calls = 0) ∧
    (s = 504 → 1 ≤ (scrape_intelligent env c url mk byp now).2.2.basic_calls →
      (scrape_intelligent env c url mk byp now).2.2.resolver_calls = 1) := by
  have hbs : scrape_basic (env.basic url) = basic_final_failure (.resp s b) := by
    rw [hb]
    exact scrape_basic_last pre _ (by rw [← hb]; exact hfail)
  have hgate : (!(scrape_basic (env.basic url)).success &&
      should_try_redirect (scrape_basic (env.basic url)).error) = (s == 504) := by
    rw [hbs]
    show (!false && should_try_redirect (status_error_msg s)) = (s == 504)
    rw [Bool.not_false, Bool.true_and, should_try_redirect_status]
  constructor
  · intro h504
    rcases scrape_intelligent_trace env c url mk byp now with h | ⟨c2, h⟩
    · rw [h]
    · rw [h, resolver_calls_spec, hgate]
      simp [h504]
  · intro h504 hbc
    rcases scrape_intelligent_trace env c url mk byp now with h | ⟨c2, h⟩
    · rw [h] at hbc
      exact absurd hbc (by decide)
    · rw [h, resolver_calls_spec, hgate]
      subst h504
      simp

/-- Shared concrete environment: the first attempt raises a client
exception, the remaining two get HTTP 403. -/
def envMixed403 : Env :=
  { env504 with basic := fun _ => [.exc "ClientOSError" "boom", .resp 403 "", .resp 403 ""] }

/-- C4, witness: a 403 status failure (mixed attempts: one client
exception, then two 403 responses) leaves the resolver uninvoked, while a
504 status failure triggers exactly one resolver call. -/
theorem c4_witness :
    (scrape_intelligent envMixed403 emptyCache "https://w.example" 20 false 0).2.2.resolver_calls
        = 0 ∧
    (scrape_intelligent env504 emptyCache "https://broken.example" 20 false 0).2.2.resolver_calls
        = 1 :=
  ⟨(c4_amended envMixed403 emptyCache "https://w.example" 20 false 0 403 ""
      [.exc "ClientOSError" "boom", .resp 403 ""] rfl (by decide)).1 (by decide),
   (c4_amended env504 emptyCache "https://broken.example" 20 false 0 504 ""
      [.resp 504 "", .resp 504 ""] rfl (by decide)).2 rfl (by
        rw [show scrape_intelligent env504 emptyCache "https://broken.example" 20 false 0
            = scrape_after_cache env504 emptyCache "https://broken.example" 20 0 from by
          unfold scrape_intelligent
          simp [env504]]
        exact basic_calls_spec env504 emptyCache "https://broken.example" 20 0)⟩

/-! ## C6 — LRU eviction in `ScrapingCache` -/

/-- Insert a batch of (url, payload) pairs in order, as successive
`ScrapingCache.set` calls. -/
def setAll (now : Nat) (us : List (String × ResultDict)) (c : Cache) : Cache :=
  us.foldl (fun acc p => cache_set now p.1 p.2 acc) c

theorem cache_set_fields (now : Nat) (u : String) (d : ResultDict) (c : Cache) :
    (cache_set now u d c).hash = c.hash ∧ (cache_set now u d c).max_size = c.max_size ∧
    (cache_set now u d c).ttl_seconds = c.ttl_seconds := by
  unfold cache_set
  exact ⟨rfl, rfl, rfl⟩

/-- A `set` of a fresh key into a non-full store appends at the
most-recently-used end and evicts nothing. -/
theorem cache_set_fresh (now : Nat) (u : String) (d : ResultDict) (c : Cache)
    (hlen : c.entries.length < c.max_size)
    (hfresh : ∀ e ∈ c.entries, e.1 ≠ c.hash u) :
    (cache_set now u d c).entries = c.entries ++ [(c.hash u, d, now)] := by
  have hpres : c.entries.any (fun e => e.1 == c.hash u) = false := by
    simp only [List.any_eq_false, beq_iff_eq]
    exact hfresh
  have hnotle : ¬ c.max_size ≤ c.entries.length := Nat.not_le.mpr hlen
  simp [cache_set, hpres, hnotle]

/-- A `set` of a fresh key into a full store drops the oldest entry and
appends the new one. -/
theorem cache_set_evict (now : Nat) (u : String) (d : ResultDict) (c : Cache)
    (hlen : c.max_size ≤ c.entries.length)
    (hfresh : ∀ e ∈ c.entries, e.1 ≠ c.hash u) :
    (cache_set now u d c).entries = c.entries.drop 1 ++ [(c.hash u, d, now)] := by
  have hpres : c.entries.any (fun e => e.1 == c.hash u) = false := by
    simp only [List.any_eq_false, beq_iff_eq]
    exact hfresh
  simp [cache_set, hpres, hlen]

/-- Filling an under-capacity store with pairwise-fresh keys appends them in
insertion order. -/
theorem setAll_fresh (now : Nat) :
    ∀ (us : List (String × ResultDict)) (c : Cache),
      c.entries.length + us.length ≤ c.max_size →
      (∀ p ∈ us, ∀ e ∈ c.entries, e.1 ≠ c.hash p.1) →
      (us.map (fun p => c.hash p.1)).Nodup →
      (setAll now us c).entries = c.entries ++ us.map (fun p => (c.hash p.1, p.2, now)) ∧
      (setAll now us c).hash = c.hash ∧
      (setAll now us c).max_size = c.max_size ∧
      (setAll now us c).ttl_seconds = c.ttl_seconds
  | [], c, _, _, _ => by simp [setAll]
  | u :: us, c, hlen, hfresh, hnd => by
    have hlt : c.entries.length < c.max_size := by
      simp only [List.length_cons] at hlen
      omega
    have hstep := cache_set_fresh now u.1 u.2 c hlt
      (fun e he => hfresh u (List.mem_cons_self u us) e he)
    have hfields := cache_set_fields now u.1 u.2 c
    simp only [List.map_cons, List.nodup_cons] at hnd
    have hrec := setAll_fresh now us (cache_set now u.1 u.2 c)
      (by
        rw [hstep, hfields.2.1]
        simp only [List.length_append, List.length_cons, List.length_nil] at hlen ⊢
        omega)
      (by
        intro p hp e he
        rw [hstep] at he
        rw [hfields.1]
        rcases List.mem_append.mp he with h1 | h1
        · exact hfresh p (List.mem_cons_of_mem u hp) e h1
        · have he2 : e = (c.hash u.1, u.2, now) := by simpa using h1
          subst he2
          show c.hash u.1 ≠ c.hash p.1
          intro hcontra
          exact hnd.1 (by rw [hcontra]; exact List.mem_map.mpr ⟨p, hp, rfl⟩))
      (by rw [hfields.1]; exact hnd.2)
    refine ⟨?_, ?_, ?_, ?_⟩
    · have : setAll now (u :: us) c = setAll now us (cache_set now u.1 u.2 c) := rfl
      rw [this, hrec.1, hstep, hfields.1]
      simp
    · rw [show setAll now (u :: us) c = setAll now us (cache_set now u.1 u.2 c) from rfl,
        hrec.2.1, hfields.1]
    · rw [show setAll now (u :: us) c = setAll now us (cache_set now u.1 u.2 c) from rfl,
        hrec.2.2.1, hfields.2.1]
    · rw [show setAll now (u :: us) c = setAll now us (cache_set now u.1 u.2 c) from rfl,
        hrec.2.2.2, hfields.2.2]

/-- In a store whose keys were produced by mapping over distinct-key pairs,
lookup of a stored pair's key finds exactly that pair's payload. -/
theorem find?_map_entry (hash : String → String) (now : Nat) :
    ∀ (l : List (String × ResultDict)) (p : String × ResultDict), p ∈ l →
      (l.map (fun q => hash q.1)).Nodup →
      (l.map (fun q => (hash q.1, q.2, now))).find? (fun e => e.1 == hash p.1)
        = some (hash p.1, p.2, now)
  | [], p, hp, _ => absurd hp (List.not_mem_nil p)
  | q :: t, p, hp, hnd => by
    simp only [List.map_cons, List.nodup_cons] at hnd
    rcases List.mem_cons.mp hp with rfl | hpt
    · simp [List.find?_cons]
    · have hne : (hash q.1 == hash p.1) = false := by
        simp only [beq_eq_false_iff_ne, ne_eq]
        intro hcontra
        exact hnd.1 (by rw [hcontra]; exact List.mem_map.mpr ⟨p, hpt, rfl⟩)
      simp only [List.map_cons, List.find?_cons, hne]
      exact find?_map_entry hash now t p hpt hnd.2

/-- `ScrapingCache.get` misses when the key is absent. -/
theorem cache_get_none (now : Nat) (url : String) (c : Cache)
    (h : c.entries.find? (fun e => e.1 == c.hash url) = none) :
    (cache_get now url c).1 = none := by
  unfold cache_get
  simp [h]

/-- `ScrapingCache.get` hits when the key is present and unexpired. -/
theorem cache_get_hit (now ts : Nat) (url k : String) (c : Cache) (d : ResultDict)
    (h : c.entries.find? (fun e => e.1 == c.hash url) = some (k, d, ts))
    (httl : now - ts ≤ c.ttl_seconds) :
    (cache_get now url c).1 = some d := by
  unfold cache_get
  simp [h, Nat.not_lt.mpr httl]

/-- C6.  Start from an empty cache of capacity `m ≥ 1`; insert `m + 1` URLs
with pairwise-distinct keys.  Exactly the least-recently-used entry — the
first URL inserted — is evicted: the store afterwards holds precisely the
later `m` entries in insertion order, a `get` for the evicted URL misses,
and a `get` for every other URL returns its stored payload. -/
theorem c6_lru_eviction (c : Cache) (now : Nat) (u0 : String) (d0 : ResultDict)
    (rest : List (String × ResultDict))
    (hempty : c.entries = [])
    (hm : c.max_size = rest.length)
    (hm1 : 1 ≤ rest.length)
    (hnd : (((u0, d0) :: rest).map (fun p => c.hash p.1)).Nodup) :
    (setAll now ((u0, d0) :: rest) c).entries
        = rest.map (fun p => (c.hash p.1, p.2, now)) ∧
    (cache_get now u0 (setAll now ((u0, d0) :: rest) c)).1 = none ∧
    (∀ p ∈ rest, (cache_get now p.1 (setAll now ((u0, d0) :: rest) c)).1 = some p.2) := by
  rcases List.eq_nil_or_concat rest with rfl | ⟨init, lp, hrest⟩
  · exact absurd hm1 (by simp)
  · subst hrest
    simp only [List.concat_eq_append] at hm hm1 hnd ⊢
    -- Split the insertions: first fill to capacity, then the evicting set.
    have hsplit : setAll now ((u0, d0) :: (init ++ [lp])) c
        = cache_set now lp.1 lp.2 (setAll now ((u0, d0) :: init) c) := by
      show setAll now (((u0, d0) :: init) ++ [lp]) c = _
      unfold setAll
      rw [List.foldl_append]
      rfl
    have hnd1 : (((u0, d0) :: init).map (fun p => c.hash p.1)).Nodup := by
      have hsub : ((u0, d0) :: init).Sublist ((u0, d0) :: (init ++ [lp])) :=
        List.Sublist.cons₂ _ (List.sublist_append_left init [lp])
      exact (hsub.map (fun p => c.hash p.1)).nodup hnd
    have hfill := setAll_fresh now ((u0, d0) :: init) c
      (by rw [hempty, hm]; simp)
      (by intro p _ e he; rw [hempty] at he; exact absurd he (List.not_mem_nil e))
      hnd1
    set c1 := setAll now ((u0, d0) :: init) c with hc1
    have hc1entries : c1.entries
        = ((u0, d0) :: init).map (fun p => (c.hash p.1, p.2, now)) := by
      rw [hfill.1, hempty]
      simp
    have hnd2 : ((((u0, d0) :: init).map (fun p => c.hash p.1)) ++ [c.hash lp.1]).Nodup := by
      have hcat : ((u0, d0) :: (init ++ [lp])) = (((u0, d0) :: init) ++ [lp]) := rfl
      rw [hcat] at hnd
      simpa using hnd
    have hnotin : c.hash lp.1 ∉ ((u0, d0) :: init).map (fun p => c.hash p.1) := by
      have h3 := List.nodup_append.mp hnd2
      intro hmem
      exact h3.2.2 hmem (List.mem_singleton_self _)
    have hlpfresh : ∀ e ∈ c1.entries, e.1 ≠ c1.hash lp.1 := by
      intro e he
      rw [hc1entries] at he
      rcases List.mem_map.mp he with ⟨q, hq, rfl⟩
      rw [hfill.2.1]
      show c.hash q.1 ≠ c.hash lp.1
      intro hcontra
      exact hnotin (by rw [← hcontra]; exact List.mem_map.mpr ⟨q, hq, rfl⟩)
    have hevict := cache_set_evict now lp.1 lp.2 c1
      (by rw [hc1entries, hfill.2.2.1, hm]; simp)
      hlpfresh
    have hfinal : (setAll now ((u0, d0) :: (init ++ [lp])) c).entries
        = (init ++ [lp]).map (fun p => (c.hash p.1, p.2, now)) := by
      rw [hsplit, hevict, hc1entries, hfill.2.1]
      simp
    have hhash : (setAll now ((u0, d0) :: (init ++ [lp])) c).hash = c.hash := by
      rw [hsplit, (cache_set_fields now lp.1 lp.2 c1).1, hfill.2.1]
    refine ⟨hfinal, ?_, ?_⟩
    · -- the evicted URL misses
      refine cache_get_none now u0 _ ?_
      rw [hfinal, hhash]
      refine List.find?_eq_none.mpr ?_
      intro e he
      rcases List.mem_map.mp he with ⟨q, hq, rfl⟩
      simp only [beq_iff_eq]
      show ¬ c.hash q.1 = c.hash u0
      intro hcontra
      simp only [List.map_cons, List.nodup_cons] at hnd
      exact hnd.1 (by rw [← hcontra]; exact List.mem_map.mpr ⟨q, hq, rfl⟩)
    · -- every later URL still hits
      intro p hp
      have hndrest : ((init ++ [lp]).map (fun q => c.hash q.1)).Nodup := by
        simp only [List.map_cons, List.nodup_cons] at hnd
        exact hnd.2
      refine cache_get_hit now now p.1 (c.hash p.1) _ p.2 ?_ (by simp)
      rw [hfinal, hhash]
      exact find?_map_entry c.hash now (init ++ [lp]) p hp hndrest

/-- A minimal successful payload used in concrete cache scenarios. -/
def pdictOf (u : String) : ResultDict :=
  { url := u, status := "success", scraping_method := "hybrid_v2" }

/-- A fresh empty cache of capacity 2 keyed by the URL itself. -/
def c6Cache : Cache :=
  { hash := fun s => s, max_size := 2, ttl_seconds := 3600, entries := [] }

/-- C6, witness: capacity 2, three distinct URLs — the first is evicted and
misses, the second is still retrievable. -/
theorem c6_witness :
    (cache_get 5 "https://a.example"
        (setAll 5 [("https://a.example", pdictOf "a"), ("https://b.example", pdictOf "b"),
          ("https://c.example", pdictOf "c")] c6Cache)).1 = none ∧
    (cache_get 5 "https://b.example"
        (setAll 5 [("https://a.example", pdictOf "a"), ("https://b.example", pdictOf "b"),
          ("https://c.example", pdictOf "c")] c6Cache)).1 = some (pdictOf "b") := by
  have h := c6_lru_eviction c6Cache 5 "https://a.example" (pdictOf "a")
    [("https://b.example", pdictOf "b"), ("https://c.example", pdictOf "c")]
    rfl rfl (by decide) (by decide)
  exact ⟨h.2.1, h.2.2 ("https://b.example", pdictOf "b") (by simp)⟩

/-! ## C2 — success vs. minimum content threshold -/

/-- A non-empty string has positive length. -/
theorem str_length_pos (s : String) (h : s ≠ "") : 0 < s.length := by
  cases s with
  | mk data =>
    cases data with
    | nil => exact absurd rfl h
    | cons a t => simp [String.length]

/-- A successful basic fetch reports the raw body length. -/
theorem scrape_basic_content_length :
    ∀ l : List BasicAttempt, (scrape_basic l).success = true →
      (scrape_basic l).content_length = (scrape_basic l).content.length
  | [] => by intro h; simp [scrape_basic, runBasic] at h
  | [a] => by
    intro h
    cases a with
    | resp s b =>
        by_cases h2 : is2xx (BasicAttempt.resp s b) = true
        · simp [scrape_basic, runBasic, h2, basic_success]
        · simp only [Bool.not_eq_true] at h2
          simp [scrape_basic, runBasic, h2, basic_final_failure] at h
    | exc t m =>
        by_cases h2 : is2xx (BasicAttempt.exc t m) = true
        · simp [is2xx] at h2
        · simp only [Bool.not_eq_true] at h2
          simp [scrape_basic, runBasic, h2, basic_final_failure] at h
  | a :: b :: rest => by
    intro h
    by_cases h2 : is2xx a = true
    · cases a with
      | resp s bd => simp [scrape_basic, runBasic, h2, basic_success]
      | exc t m => simp [is2xx] at h2
    · simp only [Bool.not_eq_true] at h2
      have hrec := scrape_basic_content_length (b :: rest)
      simp only [scrape_basic, runBasic, h2] at h ⊢
      simp only [Bool.false_eq_true, if_false]
      exact hrec (by simpa [scrape_basic, runBasic] using h)

/-- A successful browser-pool fetch carries more than 500 characters. -/
theorem browser_pool_min_length (pi : Bool) (browser : String → BrowserOutcome) (url : String)
    (h : (scrape_with_browser_pool pi browser url).success = true) :
    500 < (scrape_with_browser_pool pi browser url).content_length ∧
    (scrape_with_browser_pool pi browser url).content_length
      = (scrape_with_browser_pool pi browser url).content.length := by
  unfold scrape_with_browser_pool at h ⊢
  split_ifs at h ⊢ with h1
  · generalize browser url = o at h ⊢
    cases o with
    | noSession => exact absurd h (by simp)
    | content s =>
        by_cases h2 : 500 < s.length
        · dsimp only at h ⊢
          rw [if_pos h2]
          exact ⟨h2, rfl⟩
        · dsimp only at h
          rw [if_neg h2] at h
          exact absurd h (by simp)
    | timeout => exact absurd h (by simp)
    | exc m => exact absurd h (by simp)

/-- Quality guarantees of the `after_basic` tail, as a function of which
layer produced the success. -/
theorem after_basic_quality (env : Env) (c : Cache) (url url2 : String) (r : ScrapingResult)
    (bc rc mk now : Nat)
    (hcl : r.success = true → r.content_length = r.content.length) :
    (after_basic env c url url2 r bc rc mk now).1.status = "success" →
    ∃ n, (after_basic env c url url2 r bc rc mk now).2.2.winLen = some n ∧ 0 < n ∧
      ((after_basic env c url url2 r bc rc mk now).2.2.degraded = false →
        (after_basic env c url url2 r bc rc mk now).2.2.viaBrowser = false → 1000 ≤ n) ∧
      ((after_basic env c url url2 r bc rc mk now).2.2.viaBrowser = true → 500 < n) := by
  intro hs
  by_cases h1 : r.success = true ∧ 1000 ≤ r.content_length
  · refine ⟨r.content_length, ?_, ?_, ?_, ?_⟩
    · simp only [after_basic, if_pos h1]
    · exact Nat.lt_of_lt_of_le (by norm_num) h1.2
    · intro _ _
      exact h1.2
    · intro hv
      simp only [after_basic, if_pos h1] at hv
      exact absurd hv (by simp)
  · by_cases h2 : env.pool_initialized = false ∧ r.success = true ∧ r.content ≠ ""
    · refine ⟨r.content_length, ?_, ?_, ?_, ?_⟩
      · simp only [after_basic, if_neg h1, if_pos h2]
      · rw [hcl h2.2.1]
        exact str_length_pos r.content h2.2.2
      · intro hd
        simp only [after_basic, if_neg h1, if_pos h2] at hd
        exact absurd hd (by simp)
      · intro hv
        simp only [after_basic, if_neg h1, if_pos h2] at hv
        exact absurd hv (by simp)
    · by_cases h3 : (scrape_with_browser_pool env.pool_initialized env.browser url2).success
          = true
      · have hb := browser_pool_min_length env.pool_initialized env.browser url2 h3
        refine ⟨(scrape_with_browser_pool env.pool_initialized env.browser url2).content_length,
          ?_, ?_, ?_, ?_⟩
        · simp only [after_basic, if_neg h1, if_neg h2, if_pos h3]
        · exact Nat.lt_of_lt_of_le (by norm_num) (Nat.le_of_lt hb.1)
        · intro _ hv
          simp only [after_basic, if_neg h1, if_neg h2, if_pos h3] at hv
          exact absurd hv (by simp)
        · intro _
          exact hb.1
      · exfalso
        have hfail : (after_basic env c url url2 r bc rc mk now).1.status = "failed" := by
          simp only [after_basic, if_neg h1, if_neg h2, if_neg h3]
        rw [hfail] at hs
        exact absurd hs (by decide)

/-- Quality lifted over the redirect phase. -/
theorem scrape_after_cache_quality (env : Env) (c : Cache) (url : String) (mk now : Nat)
    (hs : (scrape_after_cache env c url mk now).1.status = "success") :
    ∃ n, (scrape_after_cache env c url mk now).2.2.winLen = some n ∧ 0 < n ∧
      ((scrape_after_cache env c url mk now).2.2.degraded = false →
        (scrape_after_cache env c url mk now).2.2.viaBrowser = false → 1000 ≤ n) ∧
      ((scrape_after_cache env c url mk now).2.2.viaBrowser = true → 500 < n) := by
  unfold scrape_after_cache at hs ⊢
  dsimp only at hs ⊢
  exact after_basic_quality env c url _ _ _ _ mk now
    (by split_ifs <;> exact scrape_basic_content_length _) hs

/-- Shared concrete environment for the degraded path: every basic attempt
answers HTTP 200 with the 5-character body `"hello"`, and the browser pool
is not initialized. -/
def envDegraded : Env :=
  { cache_enabled := false
    basic := fun _ => [.resp 200 "hello", .resp 200 "hello", .resp 200 "hello"]
    probe := fun _ => none
    pool_initialized := false
    browser := fun _ => .noSession
    cleanText := fun s => .ok s
    titleOf := fun _ => ""
    descOf := fun _ => ""
    keywordsOf := fun _ => [] }

/-- C2, counterexample.  A 5-character page is fetched (0 < 5 < 1000), the
browser pool is uninitialized, and `scrape_intelligent` surfaces the
degraded basic result as a plain `status = 'success'` dictionary
(lines 256–266 of hybrid_scraper_v2.py).  No `usedAnywayDegraded` (or any
other) marker exists anywhere in the returned dictionary — the `ResultDict`
field set is exhaustive for the source — so the caller cannot distinguish
it from a full-quality success, refuting the claimed invariant. -/
theorem c2_counterexample :
    (scrape_intelligent envDegraded emptyCache "https://small.example" 20 false 0).1.status
      = "success" ∧
    (scrape_intelligent envDegraded emptyCache "https://small.example" 20 false 0).2.2.winLen
      = some 5 ∧
    (scrape_intelligent envDegraded emptyCache "https://small.example" 20 false 0).1.content_length
      = some 5 ∧
    ¬ (1000 : Nat) ≤ 5 ∧
    (scrape_intelligent envDegraded emptyCache "https://small.example" 20 false 0).1
      = extract_keywords_smart envDegraded "hello" "https://small.example" 20 := by
  refine ⟨by decide, by decide, by decide, by decide, by decide⟩

/-- C2, amended.  For a result produced by fetching (not a cache hit), a
`success` status guarantees a positive raw fetched length `n`, with
`n ≥ 1000` exactly on the normal basic-HTTP path; the two degraded paths
undercut the threshold without any distinguishing flag: the browser-pool
layer applies its own lower floor of 500 < n, and the use-basic-anyway path
taken when the pool is unavailable guarantees only 0 < n. -/
theorem c2_amended (env : Env) (c : Cache) (url : String) (mk : Nat) (byp : Bool) (now : Nat)
    (hs : (scrape_intelligent env c url mk byp now).1.status = "success")
    (hf : (scrape_intelligent env c url mk byp now).1.from_cache = false) :
    ∃ n, (scrape_intelligent env c url mk byp now).2.2.winLen = some n ∧ 0 < n ∧
      ((scrape_intelligent env c url mk byp now).2.2.degraded = false →
        (scrape_intelligent env c url mk byp now).2.2.viaBrowser = false → 1000 ≤ n) ∧
      ((scrape_intelligent env c url mk byp now).2.2.viaBrowser = true → 500 < n) := by
  by_cases hc : env.cache_enabled = true ∧ byp = false
  · unfold scrape_intelligent at hs hf ⊢
    rw [if_pos hc] at hs hf ⊢
    revert hs hf
    rcases cache_get now url c with ⟨_ | d, c1⟩
    · intro hs _
      dsimp only at hs ⊢
      exact scrape_after_cache_quality env c1 url mk now hs
    · intro _ hf
      dsimp only at hf
      exact absurd hf (by simp [with_from_cache])
  · unfold scrape_intelligent at hs ⊢
    rw [if_neg hc] at hs ⊢
    exact scrape_after_cache_quality env c url mk now hs

/-- C2, witness: the amended theorem applied to the concrete degraded run. -/
theorem c2_witness :
    ∃ n, (scrape_intelligent envDegraded emptyCache "https://small.example" 20 false 0).2.2.winLen
        = some n ∧ 0 < n ∧
      ((scrape_intelligent envDegraded emptyCache "https://small.example" 20 false 0).2.2.degraded
          = false →
        (scrape_intelligent envDegraded emptyCache
          "https://small.example" 20 false 0).2.2.viaBrowser = false → 1000 ≤ n) ∧
      ((scrape_intelligent envDegraded emptyCache
          "https://small.example" 20 false 0).2.2.viaBrowser = true → 500 < n) :=
  c2_amended envDegraded emptyCache "https://small.example" 20 false 0 (by decide) (by decide)

/-! ## C10 — no exceptions; failures carry `status` and `error` -/

/-- Every dictionary the pipeline hands out either reports success or
carries an error message (a `status` key is present by construction: it is
a mandatory field of `ResultDict`, as it is of every dict literal the
source builds). -/
def resultWF (d : ResultDict) : Prop := d.status = "success" ∨ d.error ≠ none

/-- All payloads stored in the cache are well-formed. -/
def cacheWF (c : Cache) : Prop := ∀ e ∈ c.entries, resultWF e.2.1

theorem extract_keywords_smart_wf (env : Env) (content url : String) (mk : Nat) :
    resultWF (extract_keywords_smart env content url mk) := by
  unfold extract_keywords_smart resultWF
  cases env.cleanText content with
  | error e => simp
  | ok txt => simp

theorem cache_get_wf (now : Nat) (url : String) (c : Cache) (hwf : cacheWF c) :
    cacheWF (cache_get now url c).2 := by
  intro e he
  unfold cache_get at he
  dsimp only at he
  generalize c.entries.find? (fun e => e.1 == c.hash url) = o at he
  cases o with
  | none => exact hwf e he
  | some e0 =>
      obtain ⟨k0, d0, ts0⟩ := e0
      dsimp only at he
      split_ifs at he
      · exact hwf e (List.mem_of_mem_filter he)
      · rcases List.mem_append.mp he with h1 | h1
        · exact hwf e (List.mem_of_mem_filter h1)
        · exact hwf e (List.mem_of_mem_filter h1)

theorem cache_set_wf (now : Nat) (u : String) (d : ResultDict) (c : Cache)
    (hd : resultWF d) (hwf : cacheWF c) : cacheWF (cache_set now u d c) := by
  have hmap : ∀ l : List (String × ResultDict × Nat), (∀ x ∈ l, x ∈ c.entries) →
      ∀ e ∈ l.map (fun e => if (e.1 == c.hash u) = true then (c.hash u, d, now) else e),
        resultWF e.2.1 := by
    intro l hl e he
    rcases List.mem_map.mp he with ⟨x, hx, rfl⟩
    by_cases hk : (x.1 == c.hash u) = true
    · simp only [hk, if_true]
      exact hd
    · simp only [Bool.not_eq_true] at hk
      simp only [hk, Bool.false_eq_true, if_false]
      exact hwf x (hl x hx)
  have happ : ∀ l : List (String × ResultDict × Nat), (∀ x ∈ l, x ∈ c.entries) →
      ∀ e ∈ l ++ [(c.hash u, d, now)], resultWF e.2.1 := by
    intro l hl e he
    rcases List.mem_append.mp he with h4 | h4
    · exact hwf e (hl e h4)
    · have he2 : e = (c.hash u, d, now) := by simpa using h4
      rw [he2]
      exact hd
  intro e he
  unfold cache_set at he
  dsimp only at he
  split_ifs at he
  · exact hmap _ (fun x hx => List.mem_of_mem_drop hx) e he
  · exact hmap _ (fun x hx => hx) e he
  · exact happ _ (fun x hx => List.mem_of_mem_drop hx) e he
  · exact happ _ (fun x hx => hx) e he

theorem cache_mutate_wf (k : String) (d : ResultDict) (c : Cache)
    (hd : resultWF d) (hwf : cacheWF c) : cacheWF (cache_mutate k d c) := by
  intro e he
  unfold cache_mutate at he
  rcases List.mem_map.mp he with ⟨x, hx, rfl⟩
  by_cases hk : (x.1 == k) = true
  · simp only [hk, if_true]
    exact hd
  · simp only [Bool.not_eq_true] at hk
    simp only [hk, Bool.false_eq_true, if_false]
    exact hwf x hx

theorem with_from_cache_wf (d : ResultDict) (hd : resultWF d) :
    resultWF (with_from_cache d) := hd

theorem after_basic_wf (env : Env) (c : Cache) (url url2 : String) (r : ScrapingResult)
    (bc rc mk now : Nat) (hwf : cacheWF c) :
    resultWF (after_basic env c url url2 r bc rc mk now).1 ∧
    cacheWF (after_basic env c url url2 r bc rc mk now).2.1 := by
  have hkd0 : resultWF (extract_keywords_smart env r.content url2 mk) :=
    extract_keywords_smart_wf env r.content url2 mk
  have hkdbr : resultWF (extract_keywords_smart env
      (scrape_with_browser_pool env.pool_initialized env.browser url2).content url2 mk) :=
    extract_keywords_smart_wf env _ url2 mk
  unfold after_basic
  dsimp only
  split_ifs
  all_goals constructor
  all_goals first
    | exact hkd0
    | exact hkdbr
    | exact Or.inr (by simp)
    | exact hwf
    | exact cache_set_wf _ _ _ _ hkd0 hwf
    | exact cache_set_wf _ _ _ _ hkdbr hwf

/-- A cache hit returns a stored payload. -/
theorem cache_get_some_mem (now : Nat) (url : String) (c : Cache) (d : ResultDict)
    (h : (cache_get now url c).1 = some d) : ∃ e ∈ c.entries, e.2.1 = d := by
  unfold cache_get at h
  dsimp only at h
  generalize hfind : c.entries.find? (fun e => e.1 == c.hash url) = o at h
  cases o with
  | none => simp at h
  | some e0 =>
      obtain ⟨k0, d0, ts0⟩ := e0
      dsimp only at h
      split_ifs at h
      exact ⟨(k0, d0, ts0), List.mem_of_find?_eq_some hfind, by simpa using h⟩

theorem scrape_after_cache_wf (env : Env) (c : Cache) (url : String) (mk now : Nat)
    (hwf : cacheWF c) :
    resultWF (scrape_after_cache env c url mk now).1 ∧
    cacheWF (scrape_after_cache env c url mk now).2.1 := by
  unfold scrape_after_cache
  dsimp only
  exact after_basic_wf env c url _ _ _ _ mk now hwf

/-- C10.  `scrape_intelligent` is a total function of its oracles — every
exception any layer can raise is modelled in the oracle domains
(`BasicAttempt.exc`, probe `none`, `BrowserOutcome.exc`, `cleanText`
errors) and absorbed by the layer that catches it in the source — and,
provided every cached payload is well-formed, the returned dictionary
always carries a `status` key and, unless that status is `'success'`, an
`'error'` string; well-formedness of the cache is preserved. -/
theorem c10_no_raise (env : Env) (c : Cache) (url : String) (mk : Nat) (byp : Bool) (now : Nat)
    (hwf : cacheWF c) :
    resultWF (scrape_intelligent env c url mk byp now).1 ∧
    cacheWF (scrape_intelligent env c url mk byp now).2.1 := by
  by_cases hc : env.cache_enabled = true ∧ byp = false
  · unfold scrape_intelligent
    rw [if_pos hc]
    have hwf1 : cacheWF (cache_get now url c).2 := cache_get_wf now url c hwf
    have hsome : ∀ d', (cache_get now url c).1 = some d' → resultWF d' := by
      intro d' hd'
      rcases cache_get_some_mem now url c d' hd' with ⟨e, he, hed⟩
      rw [← hed]
      exact hwf e he
    revert hsome hwf1
    rcases cache_get now url c with ⟨_ | d, c1⟩
    · intro hwf1 _
      dsimp only
      exact scrape_after_cache_wf env c1 url mk now hwf1
    · intro hwf1 hsome
      have hd : resultWF d := hsome d rfl
      dsimp only
      exact ⟨with_from_cache_wf d hd,
        cache_mutate_wf (c.hash url) (with_from_cache d) c1 (with_from_cache_wf d hd) hwf1⟩
  · unfold scrape_intelligent
    rw [if_neg hc]
    exact scrape_after_cache_wf env c url mk now hwf

/-- C10, witness: the safety theorem applied to a concrete degraded run on
an empty cache. -/
theorem c10_witness :
    resultWF (scrape_intelligent envDegraded emptyCache "https://small.example" 20 false 0).1 ∧
    cacheWF (scrape_intelligent envDegraded emptyCache "https://small.example" 20 false 0).2.1 :=
  c10_no_raise envDegraded emptyCache "https://small.example" 20 false 0
    (fun e he => absurd he (List.not_mem_nil e))

/-! ## C1 — cache-hit idempotence of the orchestrator -/

theorem find?_append_none {α : Type} (p : α → Bool) (l1 l2 : List α)
    (h : ∀ x ∈ l1, p x = false) :
    (l1 ++ l2).find? p = l2.find? p := by
  induction l1 with
  | nil => rfl
  | cons a t ih =>
      rw [List.cons_append, List.find?_cons_of_neg]
      · exact ih (fun x hx => h x (List.mem_cons_of_mem a hx))
      · simp [h a (List.mem_cons_self a t)]

/-- An in-place overwrite of every entry keyed `k` makes the first `k`
lookup return the new value, provided some `k` entry exists. -/
theorem find?_replace (k : String) (d : ResultDict) (now : Nat) :
    ∀ l : List (String × ResultDict × Nat), l.any (fun e => e.1 == k) = true →
      (l.map (fun e => if (e.1 == k) = true then (k, d, now) else e)).find?
          (fun e => e.1 == k) = some (k, d, now)
  | [], h => by simp at h
  | x :: t, h => by
    by_cases hk : (x.1 == k) = true
    · simp only [List.map_cons, hk, if_true]
      rw [List.find?_cons_of_pos]
      simp
    · simp only [Bool.not_eq_true] at hk
      have ht : t.any (fun e => e.1 == k) = true := by
        simp only [List.any_cons, hk] at h
        simpa using h
      simp only [List.map_cons, hk, Bool.false_eq_true, if_false]
      rw [List.find?_cons_of_neg]
      · exact find?_replace k d now t ht
      · simp [hk]

/-- After `ScrapingCache.set`, looking the key up finds the stored pair
with the fresh timestamp. -/
theorem cache_set_lookup_self (now : Nat) (u : String) (d : ResultDict) (c : Cache) :
    (cache_set now u d c).entries.find? (fun e => e.1 == c.hash u)
      = some (c.hash u, d, now) := by
  unfold cache_set
  dsimp only
  by_cases hp : c.entries.any (fun e => e.1 == c.hash u) = true
  · rw [if_pos hp, if_neg (fun hcon => absurd hp (by simp [hcon.2]))]
    exact find?_replace (c.hash u) d now c.entries hp
  · rw [if_neg hp]
    simp only [Bool.not_eq_true] at hp
    have hall : ∀ x ∈ c.entries, (x.1 == c.hash u) = false := by
      intro x hx
      exact Bool.not_eq_true _ ▸ List.any_eq_false.mp hp x hx
    split_ifs with h2
    · rw [find?_append_none _ _ _
        (fun x hx => hall x (List.mem_of_mem_drop hx))]
      rw [List.find?_cons_of_pos]
      simp
    · rw [find?_append_none _ _ _ hall]
      rw [List.find?_cons_of_pos]
      simp

/-- `ScrapingCache.get` never changes the key derivation or the TTL. -/
theorem cache_get_fields (now : Nat) (url : String) (c : Cache) :
    (cache_get now url c).2.hash = c.hash ∧
    (cache_get now url c).2.ttl_seconds = c.ttl_seconds := by
  unfold cache_get
  dsimp only
  generalize c.entries.find? (fun e => e.1 == c.hash url) = o
  cases o with
  | none => exact ⟨rfl, rfl⟩
  | some e0 =>
      obtain ⟨k0, d0, ts0⟩ := e0
      dsimp only
      split_ifs <;> exact ⟨rfl, rfl⟩

/-- A fresh, unexpired entry makes `ScrapingCache.get` hit: it returns the
stored payload and only moves the entry to the most-recently-used end. -/
theorem cache_get_pair_hit (now ts : Nat) (url k : String) (c : Cache) (d : ResultDict)
    (h : c.entries.find? (fun e => e.1 == c.hash url) = some (k, d, ts))
    (httl : now - ts ≤ c.ttl_seconds) :
    cache_get now url c = (some d,
      { c with
          entries := c.entries.filter (fun e => e.1 != c.hash url) ++
            c.entries.filter (fun e => e.1 == c.hash url)
          hits := c.hits + 1 }) := by
  unfold cache_get
  dsimp only
  rw [h]
  dsimp only
  rw [if_neg (Nat.not_lt.mpr httl)]

/-- When the `after_basic` tail reports a stored key, the store happened:
caching was enabled, the key is the effective URL, and the cache it hands
back is exactly `set` of the returned dictionary applied to the incoming
cache. -/
theorem after_basic_stored (env : Env) (c : Cache) (url url2 : String) (r : ScrapingResult)
    (bc rc mk now : Nat) (u : String)
    (h : (after_basic env c url url2 r bc rc mk now).2.2.storedKey = some u) :
    env.cache_enabled = true ∧ u = url2 ∧
    (after_basic env c url url2 r bc rc mk now).2.1
      = cache_set now url2 (after_basic env c url url2 r bc rc mk now).1 c := by
  unfold after_basic at h ⊢
  dsimp only at h ⊢
  split_ifs at h ⊢
  all_goals exact ⟨by assumption, (Option.some.inj h).symm, rfl⟩

theorem scrape_after_cache_stored (env : Env) (c : Cache) (url : String) (mk now : Nat)
    (u : String)
    (h : (scrape_after_cache env c url mk now).2.2.storedKey = some u) :
    env.cache_enabled = true ∧
    (scrape_after_cache env c url mk now).2.1
      = cache_set now u (scrape_after_cache env c url mk now).1 c := by
  unfold scrape_after_cache at h ⊢
  dsimp only at h ⊢
  obtain ⟨h1, h2, h3⟩ := after_basic_stored env c url _ _ _ _ mk now u h
  refine ⟨h1, ?_⟩
  rw [h2]
  exact h3

/-- Lifting the store characterization to the orchestrator entry point:
the cache it returns is a `set` of the returned dictionary over some
intermediate cache with the same key derivation and TTL. -/
theorem scrape_intelligent_stored (env : Env) (c : Cache) (url : String) (mk : Nat)
    (byp : Bool) (now : Nat) (u : String)
    (h : (scrape_intelligent env c url mk byp now).2.2.storedKey = some u) :
    env.cache_enabled = true ∧
    ∃ cmid : Cache, cmid.hash = c.hash ∧ cmid.ttl_seconds = c.ttl_seconds ∧
      (scrape_intelligent env c url mk byp now).2.1
        = cache_set now u (scrape_intelligent env c url mk byp now).1 cmid := by
  by_cases hc : env.cache_enabled = true ∧ byp = false
  · unfold scrape_intelligent at h ⊢
    rw [if_pos hc] at h ⊢
    have hfields := cache_get_fields now url c
    revert h hfields
    rcases cache_get now url c with ⟨_ | d, c1⟩
    · intro h hfields
      dsimp only at h ⊢
      obtain ⟨h1, h2⟩ := scrape_after_cache_stored env c1 url mk now u h
      exact ⟨h1, c1, hfields.1, hfields.2, h2⟩
    · intro h _
      dsimp only at h
      exact absurd h (by simp)
  · unfold scrape_intelligent at h ⊢
    rw [if_neg hc] at h ⊢
    obtain ⟨h1, h2⟩ := scrape_after_cache_stored env c url mk now u h
    exact ⟨h1, c, rfl, rfl, h2⟩

/-- The degraded environment with caching switched on. -/
def envDegCached : Env := { envDegraded with cache_enabled := true }

/-- C1, counterexample.  First call: the 5-char page is fetched, the
browser pool is unavailable, and the degraded basic result is returned
with `status = 'success'` — but that path (lines 256–266) performs **no**
cache store.  Second call for the same URL one second later (well inside
the 3600s TTL window, no bypass): the cache misses and the fast HTTP
fetcher runs again (`basic_calls = 1`), refuting the claim that a
successful first call makes the second call a pure cache hit. -/
theorem c1_counterexample :
    (scrape_intelligent envDegCached emptyCache "https://small.example" 20 false 0).1.status
      = "success" ∧
    (scrape_intelligent envDegCached
        (scrape_intelligent envDegCached emptyCache "https://small.example" 20 false 0).2.1
        "https://small.example" 20 false 1).2.2.basic_calls = 1 ∧
    (scrape_intelligent envDegCached
        (scrape_intelligent envDegCached emptyCache "https://small.example" 20 false 0).2.1
        "https://small.example" 20 false 1).1.from_cache = false := by
  refine ⟨by decide, by decide, by decide⟩

/-- C1, amended.  If the first call not only succeeded but actually stored
its result in the cache under the requested URL — i.e. it went through a
cache-storing success path (basic-HTTP-with-≥1000-chars or browser-pool)
with no alternate-URL substitution; redirected successes are keyed under
the alternate URL, and the degraded pool-unavailable path stores nothing —
then a second call for the same URL within the TTL window with no bypass
flag returns exactly the stored result (marked `from_cache`) and invokes
neither the fast HTTP fetcher, the browser pool, nor the resolver
(its trace is the all-zero trace). -/
theorem c1_amended (env : Env) (c : Cache) (url : String) (mk now1 now2 : Nat)
    (hstored : (scrape_intelligent env c url mk false now1).2.2.storedKey = some url)
    (httl : now2 - now1 ≤ c.ttl_seconds) :
    (scrape_intelligent env (scrape_intelligent env c url mk false now1).2.1 url mk false now2).1
      = with_from_cache (scrape_intelligent env c url mk false now1).1 ∧
    (scrape_intelligent env (scrape_intelligent env c url mk false now1).2.1
        url mk false now2).2.2 = ({} : Trace) := by
  obtain ⟨hen, cmid, hhash, httlf, hset⟩ :=
    scrape_intelligent_stored env c url mk false now1 url hstored
  set c1 := (scrape_intelligent env c url mk false now1).2.1 with hc1
  set r1 := (scrape_intelligent env c url mk false now1).1 with hr1
  have hfind : c1.entries.find? (fun e => e.1 == c1.hash url)
      = some (cmid.hash url, r1, now1) := by
    rw [hset]
    have hh : (cache_set now1 url r1 cmid).hash = cmid.hash := rfl
    rw [hh]
    exact cache_set_lookup_self now1 url r1 cmid
  have httl1 : now2 - now1 ≤ c1.ttl_seconds := by
    rw [hset]
    show now2 - now1 ≤ cmid.ttl_seconds
    rw [httlf]
    exact httl
  have hget2 := cache_get_pair_hit now2 now1 url (cmid.hash url) c1 r1 hfind httl1
  unfold scrape_intelligent
  rw [if_pos ⟨hen, rfl⟩, hget2]
  exact ⟨rfl, rfl⟩

/-- A 1000-character page body. -/
def bigBody : String := String.mk (List.replicate 1000 'a')

/-- Shared concrete environment where the basic fetch returns a
1000-character page and caching is enabled. -/
def envBig : Env :=
  { cache_enabled := true
    basic := fun _ => [.resp 200 bigBody, .resp 200 bigBody, .resp 200 bigBody]
    probe := fun _ => none
    pool_initialized := true
    browser := fun _ => .noSession
    cleanText := fun s => .ok s
    titleOf := fun _ => ""
    descOf := fun _ => ""
    keywordsOf := fun _ => [] }

set_option maxRecDepth 100000 in
/-- C1, witness: a normal ≥1000-char success stores under the requested
URL, and the second call is a pure cache hit with the all-zero trace. -/
theorem c1_witness :
    (scrape_intelligent envBig (scrape_intelligent envBig emptyCache "https://big.example"
        20 false 0).2.1 "https://big.example" 20 false 1).1
      = with_from_cache (scrape_intelligent envBig emptyCache "https://big.example" 20 false 0).1 ∧
    (scrape_intelligent envBig (scrape_intelligent envBig emptyCache "https://big.example"
        20 false 0).2.1 "https://big.example" 20 false 1).2.2 = ({} : Trace) :=
  c1_amended envBig emptyCache "https://big.example" 20 0 1 (by decide) (by decide)

/-! ## C9 — mutation of cache entries and returned results -/

/-- The keys of a cache are pairwise distinct (always true of the Python
`OrderedDict`). -/
def keysNodup (c : Cache) : Prop := (c.entries.map (fun e => e.1)).Nodup

theorem find?_append_left {α : Type} (p : α → Bool) (l1 l2 : List α) (a : α)
    (h : l1.find? p = some a) : (l1 ++ l2).find? p = some a := by
  induction l1 with
  | nil => simp [List.find?] at h
  | cons x t ih =>
      by_cases hx : p x = true
      · rw [List.find?_cons_of_pos _ hx] at h
        rw [List.cons_append, List.find?_cons_of_pos _ hx]
        exact h
      · rw [List.find?_cons_of_neg _ hx] at h
        rw [List.cons_append, List.find?_cons_of_neg _ hx]
        exact ih h

/-- A key-preserving rewrite of every entry commutes with keyed lookup. -/
theorem find?_map_key_preserving (f : String × ResultDict × Nat → String × ResultDict × Nat)
    (hf : ∀ e, (f e).1 = e.1) (k : String) (l : List (String × ResultDict × Nat)) :
    (l.map f).find? (fun e => e.1 == k) = (l.find? (fun e => e.1 == k)).map f := by
  induction l with
  | nil => rfl
  | cons x t ih =>
      by_cases hx : (x.1 == k) = true
      · simp [hx, hf x]
      · simp [hx, hf x, ih]

theorem find?_filter_ne (h k : String) (hne : k ≠ h) (l : List (String × ResultDict × Nat)) :
    (l.filter (fun e => e.1 != h)).find? (fun e => e.1 == k)
      = l.find? (fun e => e.1 == k) := by
  induction l with
  | nil => rfl
  | cons x t ih =>
      by_cases hx : (x.1 == k) = true
      · have hxk : x.1 = k := by simpa using hx
        have hkeep : (x.1 != h) = true := by simp [hxk]; exact hne
        simp [hkeep, hx]
      · by_cases hk2 : (x.1 != h) = true
        · simp [hk2, hx, ih]
        · simp [hk2, hx, ih]

theorem find?_filter_self_none (h : String) (l : List (String × ResultDict × Nat)) :
    (l.filter (fun e => e.1 != h)).find? (fun e => e.1 == h) = none := by
  refine List.find?_eq_none.mpr ?_
  intro x hx
  have := List.of_mem_filter hx
  simp only [bne_iff_ne, ne_eq] at this
  simp [this]

theorem find?_filter_eq (k : String) (l : List (String × ResultDict × Nat)) :
    (l.filter (fun e => e.1 == k)).find? (fun e => e.1 == k)
      = l.find? (fun e => e.1 == k) := by
  induction l with
  | nil => rfl
  | cons x t ih =>
      by_cases hx : (x.1 == k) = true
      · simp [hx]
      · simp [hx, ih]

/-- A successful keyed lookup pins down the stored triple's key. -/
theorem cache_lookup_find? (c : Cache) (k : String) (d : ResultDict) (ts : Nat)
    (h : cache_lookup c k = some (d, ts)) :
    c.entries.find? (fun e => e.1 == k) = some (k, d, ts) := by
  unfold cache_lookup at h
  revert h
  generalize hf : c.entries.find? (fun e => e.1 == k) = o
  cases o with
  | none => intro h; simp at h
  | some e0 =>
      obtain ⟨k0, d0, ts0⟩ := e0
      intro h
      have hk0 : k0 = k := by simpa using List.find?_some hf
      have hdts : d0 = d ∧ ts0 = ts := by simpa using h
      rw [hk0, hdts.1, hdts.2]

/-- A failed keyed lookup means the key is absent. -/
theorem cache_lookup_none_find? (c : Cache) (k : String)
    (h : cache_lookup c k = none) :
    c.entries.find? (fun e => e.1 == k) = none := by
  unfold cache_lookup at h
  revert h
  generalize hf : c.entries.find? (fun e => e.1 == k) = o
  cases o with
  | none => intro _; rfl
  | some e0 => intro h; simp at h

/-- Frame property of `ScrapingCache.get`: a stored entry either survives
with its exact value (possibly moved in recency order) or — only when it
is the looked-up key itself and had expired — is purged. -/
theorem cache_get_frame (now : Nat) (url : String) (c : Cache) (k : String)
    (d : ResultDict) (ts : Nat) (h : cache_lookup c k = some (d, ts)) :
    cache_lookup (cache_get now url c).2 k = some (d, ts) ∨
    (k = c.hash url ∧ cache_lookup (cache_get now url c).2 k = none) := by
  have hfind := cache_lookup_find? c k d ts h
  unfold cache_get
  dsimp only
  generalize hfu : c.entries.find? (fun e => e.1 == c.hash url) = o
  cases o with
  | none =>
      left
      unfold cache_lookup
      dsimp only
      rw [hfind]
  | some e0 =>
      obtain ⟨k0, d0, ts0⟩ := e0
      dsimp only
      split_ifs with hexp
      · by_cases hk : k = c.hash url
        · right
          refine ⟨hk, ?_⟩
          unfold cache_lookup
          dsimp only
          rw [hk, find?_filter_self_none]
        · left
          unfold cache_lookup
          dsimp only
          rw [find?_filter_ne _ _ hk, hfind]
      · left
        unfold cache_lookup
        dsimp only
        by_cases hk : k = c.hash url
        · subst hk
          rw [find?_append_none _ _ _ (fun x hx => by
            have := List.of_mem_filter hx
            simp only [bne_iff_ne, ne_eq] at this
            simp [this])]
          rw [find?_filter_eq, hfind]
        · rw [find?_append_left _ _ _ _ (by rw [find?_filter_ne _ _ hk]; exact hfind)]

/-- The overwrite map of `ScrapingCache.set` preserves keys. -/
theorem set_replace_key_preserving (K : String) (d' : ResultDict) (now : Nat) :
    ∀ e : String × ResultDict × Nat,
      ((if (e.1 == K) = true then (K, d', now) else e) : String × ResultDict × Nat).1 = e.1 := by
  intro e
  split_ifs with hk
  · have : e.1 = K := by simpa using hk
    rw [this]
  · rfl

/-- Frame property of `ScrapingCache.set` on a key that was present: the
lookup afterwards is unchanged, the freshly stored pair (when the key is
the set key), or a miss (when the oldest entry was evicted and it was this
one). -/
theorem cache_set_frame (now : Nat) (u : String) (d' : ResultDict) (c : Cache) (k : String)
    (d : ResultDict) (ts : Nat) (hnd : keysNodup c)
    (h : cache_lookup c k = some (d, ts)) :
    cache_lookup (cache_set now u d' c) k = some (d, ts) ∨
    (k = c.hash u ∧ cache_lookup (cache_set now u d' c) k = some (d', now)) ∨
    cache_lookup (cache_set now u d' c) k = none := by
  have hfind := cache_lookup_find? c k d ts h
  unfold cache_set
  dsimp only
  by_cases hp : c.entries.any (fun e => e.1 == c.hash u) = true
  · rw [if_pos hp, if_neg (fun hcon => absurd hp (by simp [hcon.2]))]
    unfold cache_lookup
    dsimp only
    rw [find?_map_key_preserving _ (set_replace_key_preserving (c.hash u) d' now) k, hfind]
    by_cases hk : (k == c.hash u) = true
    · right; left
      have hk2 : k = c.hash u := by simpa using hk
      exact ⟨hk2, by simp [hk2]⟩
    · left
      have hk2 : ¬ k = c.hash u := by simpa using hk
      simp [hk2]
  · rw [if_neg hp]
    have hku : k ≠ c.hash u := by
      intro hcon
      exact absurd (List.any_eq_true.mpr
        ⟨(k, d, ts), List.mem_of_find?_eq_some hfind, by simp [hcon]⟩) hp
    split_ifs with hev
    · -- eviction: the oldest entry is dropped before appending
      unfold cache_lookup
      dsimp only
      cases hent : c.entries with
      | nil => rw [hent] at hfind; simp at hfind
      | cons e0 tl =>
          by_cases he0 : (e0.1 == k) = true
          · -- the tracked entry was the evicted head
            right; right
            have he0k : e0.1 = k := by simpa using he0
            have htl : tl.find? (fun e => e.1 == k) = none := by
              refine List.find?_eq_none.mpr ?_
              intro x hx
              unfold keysNodup at hnd
              rw [hent] at hnd
              simp only [List.map_cons, List.nodup_cons] at hnd
              intro hcon
              have : x.1 = k := by simpa using hcon
              exact hnd.1 (by rw [he0k, ← this]; exact List.mem_map.mpr ⟨x, hx, rfl⟩)
            simp only [List.drop_succ_cons, List.drop_zero]
            rw [find?_append_none _ _ _ (fun x hx => by
              have := List.find?_eq_none.mp htl x hx
              simpa using this)]
            rw [List.find?_cons_of_neg _ (by simpa using Ne.symm hku), List.find?_nil]
          · -- the tracked entry survives in the tail
            left
            rw [hent] at hfind
            rw [List.find?_cons_of_neg _ (by simpa using he0)] at hfind
            simp only [List.drop_succ_cons, List.drop_zero]
            rw [find?_append_left _ _ _ _ hfind]
    · -- no eviction: plain append
      left
      unfold cache_lookup
      dsimp only
      rw [find?_append_left _ _ _ _ hfind]

/-- Frame property of `ScrapingCache.set` on an absent key: it stays
absent unless it is the set key itself. -/
theorem cache_set_frame_none (now : Nat) (u : String) (d' : ResultDict) (c : Cache)
    (k : String) (h : cache_lookup c k = none) :
    cache_lookup (cache_set now u d' c) k = none ∨
    (k = c.hash u ∧ cache_lookup (cache_set now u d' c) k = some (d', now)) := by
  have hfind := cache_lookup_none_find? c k h
  have hall : ∀ x ∈ c.entries, (x.1 == k) = false := by
    intro x hx
    have := List.find?_eq_none.mp hfind x hx
    simpa using this
  unfold cache_set
  dsimp only
  by_cases hp : c.entries.any (fun e => e.1 == c.hash u) = true
  · rw [if_pos hp, if_neg (fun hcon => absurd hp (by simp [hcon.2]))]
    left
    unfold cache_lookup
    dsimp only
    rw [find?_map_key_preserving _ (set_replace_key_preserving (c.hash u) d' now) k, hfind]
    rfl
  · rw [if_neg hp]
    have happ : ∀ l : List (String × ResultDict × Nat), (∀ x ∈ l, x ∈ c.entries) →
        (l ++ [(c.hash u, d', now)]).find? (fun e => e.1 == k)
          = if (c.hash u == k) = true then some (c.hash u, d', now) else none := by
      intro l hl
      rw [find?_append_none _ _ _ (fun x hx => hall x (hl x hx))]
      by_cases hK : (c.hash u == k) = true
      · simp [hK]
      · simp [hK]
    split_ifs with hev
    · unfold cache_lookup
      dsimp only
      rw [happ _ (fun x hx => List.mem_of_mem_drop hx)]
      by_cases hK : (c.hash u == k) = true
      · right
        exact ⟨by simpa using (Eq.symm (by simpa using hK : c.hash u = k)), by rw [if_pos hK]⟩
      · left
        rw [if_neg hK]
    · unfold cache_lookup
      dsimp only
      rw [happ _ (fun x hx => hx)]
      by_cases hK : (c.hash u == k) = true
      · right
        exact ⟨by simpa using (Eq.symm (by simpa using hK : c.hash u = k)), by rw [if_pos hK]⟩
      · left
        rw [if_neg hK]

/-- Frame property of the aliased in-place mutation: only the data stored
under the mutated key changes, to the new dict, keeping its timestamp. -/
theorem cache_mutate_frame (hK : String) (d' : ResultDict) (c : Cache) (k : String) :
    cache_lookup (cache_mutate hK d' c) k
      = (cache_lookup c k).map
          (fun p => if (k == hK) = true then (d', p.2) else p) := by
  unfold cache_mutate cache_lookup
  dsimp only
  rw [find?_map_key_preserving _ (fun e => by split_ifs <;> rfl) k]
  generalize hf : c.entries.find? (fun e => e.1 == k) = o
  cases o with
  | none => rfl
  | some e0 =>
      obtain ⟨k0, d0, ts0⟩ := e0
      have hk0 : k0 = k := by simpa using List.find?_some hf
      subst hk0
      by_cases hk : (k0 == hK) = true
      · have hk2 : k0 = hK := by simpa using hk
        simp [hk, hk2]
      · have hk2 : ¬ k0 = hK := by simpa using hk
        simp [hk, hk2]

/-- `ScrapingCache.get` keeps the cache keys pairwise distinct. -/
theorem cache_get_keysNodup (now : Nat) (url : String) (c : Cache) (hnd : keysNodup c) :
    keysNodup (cache_get now url c).2 := by
  unfold cache_get
  dsimp only
  generalize c.entries.find? (fun e => e.1 == c.hash url) = o
  cases o with
  | none => exact hnd
  | some e0 =>
      obtain ⟨k0, d0, ts0⟩ := e0
      dsimp only
      split_ifs
      · unfold keysNodup at hnd ⊢
        exact ((List.filter_sublist _).map _).nodup hnd
      · unfold keysNodup at hnd ⊢
        have hperm : (c.entries.filter (fun e => e.1 != c.hash url) ++
            c.entries.filter (fun e => e.1 == c.hash url)).Perm c.entries := by
          have h1 := List.filter_append_perm (fun e => e.1 != c.hash url) c.entries
          have h2 : c.entries.filter (fun x => !(x.1 != c.hash url))
              = c.entries.filter (fun e => e.1 == c.hash url) := by
            refine List.filter_congr ?_
            intro x _
            simp [bne]
          rw [h2] at h1
          exact h1
        exact ((hperm.map (fun e => e.1)).nodup_iff).mpr hnd

/-- The `after_basic` tail either leaves the cache alone or performs one
`set` of its own returned dictionary. -/
theorem after_basic_cache (env : Env) (c : Cache) (url url2 : String) (r : ScrapingResult)
    (bc rc mk now : Nat) :
    (after_basic env c url url2 r bc rc mk now).2.1 = c ∨
    (after_basic env c url url2 r bc rc mk now).2.1
      = cache_set now url2 (after_basic env c url url2 r bc rc mk now).1 c := by
  unfold after_basic
  dsimp only
  split_ifs
  all_goals first | (left; rfl) | (right; rfl)

theorem scrape_after_cache_cache (env : Env) (c : Cache) (url : String) (mk now : Nat) :
    (scrape_after_cache env c url mk now).2.1 = c ∨
    ∃ u2, (scrape_after_cache env c url mk now).2.1
      = cache_set now u2 (scrape_after_cache env c url mk now).1 c := by
  unfold scrape_after_cache
  dsimp only
  exact (after_basic_cache env c url _ _ _ _ mk now).imp (fun h => h) (fun h => ⟨_, h⟩)

theorem scrape_after_cache_frame (env : Env) (c : Cache) (url : String) (mk now : Nat)
    (k : String) (d : ResultDict) (ts : Nat) (hnd : keysNodup c)
    (hk : cache_lookup c k = some (d, ts)) :
    cache_lookup (scrape_after_cache env c url mk now).2.1 k = some (d, ts) ∨
    cache_lookup (scrape_after_cache env c url mk now).2.1 k
      = some ((scrape_after_cache env c url mk now).1, now) ∨
    cache_lookup (scrape_after_cache env c url mk now).2.1 k = none := by
  rcases scrape_after_cache_cache env c url mk now with hc | ⟨u2, hc⟩
  · rw [hc]
    left
    exact hk
  · rw [hc]
    rcases cache_set_frame now u2 _ c k d ts hnd hk with h | ⟨_, h⟩ | h
    · left; exact h
    · right; left; exact h
    · right; right; exact h

theorem scrape_after_cache_frame_none (env : Env) (c : Cache) (url : String) (mk now : Nat)
    (k : String) (h : cache_lookup c k = none) :
    cache_lookup (scrape_after_cache env c url mk now).2.1 k = none ∨
    cache_lookup (scrape_after_cache env c url mk now).2.1 k
      = some ((scrape_after_cache env c url mk now).1, now) := by
  rcases scrape_after_cache_cache env c url mk now with hc | ⟨u2, hc⟩
  · rw [hc]
    left
    exact h
  · rw [hc]
    rcases cache_set_frame_none now u2 _ c k h with h2 | ⟨_, h2⟩
    · left; exact h2
    · right; exact h2

/-- A cache hit's payload is the stored value under the looked-up key. -/
theorem cache_get_hit_eq_lookup (now : Nat) (url : String) (c : Cache) (d0 : ResultDict)
    (h : (cache_get now url c).1 = some d0) :
    ∃ ts0, cache_lookup c (c.hash url) = some (d0, ts0) := by
  unfold cache_get at h
  dsimp only at h
  unfold cache_lookup
  generalize hf : c.entries.find? (fun e => e.1 == c.hash url) = o at h ⊢
  cases o with
  | none => simp at h
  | some e0 =>
      obtain ⟨k0, d00, ts0⟩ := e0
      dsimp only at h ⊢
      split_ifs at h
      have hd : d00 = d0 := by simpa using h
      exact ⟨ts0, by simp [hd]⟩

/-- A one-entry cache whose stored payload is not yet flagged as cached. -/
def c9Cache : Cache :=
  { hash := fun s => s, max_size := 1000, ttl_seconds := 3600,
    entries := [("https://u.example", pdictOf "u", 0)] }

/-- C9, counterexample.  The claim says stored results are mutated only by
the cache's own `set`/`remove`/`clear`.  But the cache-hit path of
`scrape_intelligent` executes `cached_result['from_cache'] = True`
(hybrid_scraper_v2.py line 198) on the very dict object `get` returned —
which *is* the stored object — so after a call that only ever invoked
`get`, the entry's stored value has changed (it gained `from_cache=True`),
and the dict handed to the caller is that same aliased object. -/
theorem c9_counterexample :
    cache_lookup c9Cache "https://u.example" = some (pdictOf "u", 0) ∧
    (pdictOf "u").from_cache = false ∧
    cache_lookup (scrape_intelligent envDegCached c9Cache "https://u.example" 20 false 0).2.1
        "https://u.example"
      = some (with_from_cache (pdictOf "u"), 0) ∧
    with_from_cache (pdictOf "u") ≠ pdictOf "u" := by
  refine ⟨by decide, by decide, by decide, by decide⟩

/-- C9, amended.  For every orchestrator call and every entry stored
beforehand (in a cache with distinct keys), the entry afterwards is:
unchanged; or its own value with `from_cache` set to `true` at its
original timestamp — the aliased in-place mutation of the cache-hit path,
the one write that bypasses the cache's own operations; or overwritten by
the cache store of the call's returned dictionary; or absent (TTL purge of
an expired entry, or LRU eviction).  Returned dictionaries themselves are
values in this model; the only aliasing effect of the source is exactly
the `from_cache` write accounted for here. -/
theorem c9_amended (env : Env) (c : Cache) (url : String) (mk : Nat) (byp : Bool) (now : Nat)
    (k : String) (d : ResultDict) (ts : Nat)
    (hnd : keysNodup c)
    (hk : cache_lookup c k = some (d, ts)) :
    cache_lookup (scrape_intelligent env c url mk byp now).2.1 k = some (d, ts) ∨
    cache_lookup (scrape_intelligent env c url mk byp now).2.1 k
      = some (with_from_cache d, ts) ∨
    cache_lookup (scrape_intelligent env c url mk byp now).2.1 k
      = some ((scrape_intelligent env c url mk byp now).1, now) ∨
    cache_lookup (scrape_intelligent env c url mk byp now).2.1 k = none := by
  by_cases hc : env.cache_enabled = true ∧ byp = false
  · unfold scrape_intelligent
    rw [if_pos hc]
    have hframe := cache_get_frame now url c k d ts hk
    have hnd1 := cache_get_keysNodup now url c hnd
    have hhit := fun d0 (hh : (cache_get now url c).1 = some d0) =>
      cache_get_hit_eq_lookup now url c d0 hh
    revert hframe hnd1 hhit
    rcases cache_get now url c with ⟨o, c1⟩
    cases o with
    | none =>
        intro hframe hnd1 _
        dsimp only at hframe hnd1 ⊢
        rcases hframe with h1 | ⟨hkurl, h1⟩
        · rcases scrape_after_cache_frame env c1 url mk now k d ts hnd1 h1 with
            h2 | h2 | h2
          · left; exact h2
          · right; right; left; exact h2
          · right; right; right; exact h2
        · rcases scrape_after_cache_frame_none env c1 url mk now k h1 with h2 | h2
          · right; right; right; exact h2
          · right; right; left; exact h2
    | some d0 =>
        intro hframe hnd1 hhit
        dsimp only at hframe hnd1 ⊢
        rw [cache_mutate_frame]
        rcases hframe with h1 | ⟨hkurl, h1⟩
        · rw [h1]
          by_cases hkk : (k == c.hash url) = true
          · obtain ⟨ts0, hl0⟩ := hhit d0 rfl
            have hkeq : k = c.hash url := by simpa using hkk
            rw [← hkeq] at hl0
            have : d0 = d ∧ ts0 = ts := by
              have := hl0.symm.trans hk
              simpa using this
            right; left
            simp [hkk, with_from_cache, this.1]
          · left
            simp [hkk]
        · rw [h1]
          right; right; right
          rfl
  · unfold scrape_intelligent
    rw [if_neg hc]
    rcases scrape_after_cache_frame env c url mk now k d ts hnd hk with h2 | h2 | h2
    · left; exact h2
    · right; right; left; exact h2
    · right; right; right; exact h2

/-- C9, witness: the amended frame theorem applied to the concrete
one-entry cache-hit run; the disjunct that holds is the aliased
`from_cache` mutation. -/
theorem c9_witness :
    cache_lookup (scrape_intelligent envDegCached c9Cache "https://u.example" 20 false 0).2.1
        "https://u.example" = some (pdictOf "u", 0) ∨
    cache_lookup (scrape_intelligent envDegCached c9Cache "https://u.example" 20 false 0).2.1
        "https://u.example" = some (with_from_cache (pdictOf "u"), 0) ∨
    cache_lookup (scrape_intelligent envDegCached c9Cache "https://u.example" 20 false 0).2.1
        "https://u.example"
      = some ((scrape_intelligent envDegCached c9Cache "https://u.example" 20 false 0).1, 0) ∨
    cache_lookup (scrape_intelligent envDegCached c9Cache "https://u.example" 20 false 0).2.1
        "https://u.example" = none :=
  c9_amended envDegCached c9Cache "https://u.example" 20 false 0 "https://u.example"
    (pdictOf "u") 0 (by unfold keysNodup; decide) (by decide)

/-! ## C5 — batch events and failure accounting -/

/-- `_get_error_suggestion` always yields a non-empty actionable string. -/
theorem get_error_suggestion_ne (e : String) : get_error_suggestion e ≠ "" := by
  unfold get_error_suggestion
  dsimp only
  split_ifs <;> decide

theorem sortMatches_length : ∀ ms : List (String × Nat), (sortMatches ms).length = ms.length := by
  have hins : ∀ (m : String × Nat) (l : List (String × Nat)),
      (insertDesc m l).length = l.length + 1 := by
    intro m l
    induction l with
    | nil => rfl
    | cons x t ih =>
        unfold insertDesc
        split_ifs
        · rfl
        · simp [ih]
  intro ms
  induction ms with
  | nil => rfl
  | cons m rest ih =>
      unfold sortMatches
      rw [hins, ih]
      rfl

theorem process_classify_error_suggestion (benv : BatchEnv) (u : String) (f : FailedSite)
    (h : process_classify benv u = .error f) : f.suggestion ≠ "" := by
  unfold process_classify at h
  revert h
  generalize benv.classify u = r
  cases r with
  | error e =>
      intro h
      have h2 : (⟨u, strTake 100 e, get_error_suggestion e⟩ : FailedSite) = f := by
        simpa using h
      rw [← h2]
      exact get_error_suggestion_ne e
  | ok s => intro h; simp at h

theorem process_one_error_suggestion (benv : BatchEnv) (u : String) (f : FailedSite)
    (h : process_one benv u = .error f) : f.suggestion ≠ "" := by
  unfold process_one at h
  split_ifs at h with hw
  · revert h
    generalize benv.fallback u = r
    cases r with
    | some err =>
        intro h
        have h2 : (⟨u, strTake 100 err, get_error_suggestion err⟩ : FailedSite) = f := by
          simpa using h
        rw [← h2]
        exact get_error_suggestion_ne err
    | none => intro h; exact process_classify_error_suggestion benv u f h
  · exact process_classify_error_suggestion benv u f h

/-- Wave-1 live events contribute none of the wave-2/final event kinds. -/
theorem wave1_events_counts (benv : BatchEnv) (total : Nat) :
    ∀ (urls : List String) (cur : Nat),
      (wave1_events benv total urls cur).countP isFailedEv = 0 ∧
      (wave1_events benv total urls cur).countP isProgressEv = 0 ∧
      (wave1_events benv total urls cur).countP isResultEv = 0 ∧
      (wave1_events benv total urls cur).countP isCompleteEv = 0
  | [], _ => by simp [wave1_events]
  | u :: us, cur => by
      have ih := wave1_events_counts benv total us (cur + 1)
      unfold wave1_events
      simp [List.countP_cons, isFailedEv, isProgressEv, isResultEv, isCompleteEv,
        ih.1, ih.2.1, ih.2.2.1, ih.2.2.2]

/-- The wave-2 loop: every URL becomes exactly one match or one failed
site; successes emit a `progress`+`result` pair each; no `failed` and no
`complete` event is ever emitted; every failed site carries a non-empty
suggestion. -/
theorem wave2_fold_spec (benv : BatchEnv) (total : Nat) :
    ∀ (urls : List String) (idx : Nat),
      (wave2_fold benv total urls idx).2.1.length
          + (wave2_fold benv total urls idx).2.2.length = urls.length ∧
      (wave2_fold benv total urls idx).1.countP isProgressEv
        = (wave2_fold benv total urls idx).2.1.length ∧
      (wave2_fold benv total urls idx).1.countP isResultEv
        = (wave2_fold benv total urls idx).2.1.length ∧
      (wave2_fold benv total urls idx).1.countP isFailedEv = 0 ∧
      (wave2_fold benv total urls idx).1.countP isCompleteEv = 0 ∧
      (wave2_fold benv total urls idx).2.2.all (fun f => !(f.suggestion == "")) = true
  | [], idx => by simp [wave2_fold]
  | u :: us, idx => by
      have ih := wave2_fold_spec benv total us (idx + 1)
      unfold wave2_fold
      revert ih
      generalize hp : process_one benv u = r
      intro ih
      cases r with
      | ok m =>
          dsimp only
          simp only [List.countP_cons, List.length_cons, isProgressEv, isResultEv,
            isFailedEv, isCompleteEv]
          refine ⟨by omega, by simp [ih.2.1], by simp [ih.2.2.1], by simp [ih.2.2.2.1],
            by simp [ih.2.2.2.2.1], ih.2.2.2.2.2⟩
      | error f =>
          dsimp only
          have hsug : (f.suggestion == "") = false := by
            have := process_one_error_suggestion benv u f hp
            simpa using this
          refine ⟨by simp [ih.1]; omega, ih.2.1, ih.2.2.1, ih.2.2.2.1, ih.2.2.2.2.1, ?_⟩
          simp [List.all_cons, hsug, ih.2.2.2.2.2]

/-- A batch oracle under which wget fails for every URL and the
hybrid-scraper fallback also fails, reporting `"boom"`. -/
def benvFail : BatchEnv :=
  { wgetSuccess := fun _ => false
    fallback := fun _ => some "boom"
    classify := fun _ => .ok 0 }

/-- C5, counterexample.  The claim says each URL whose processing fails
"produces its own `failed` event".  In the source, `process_competitor_with_ai`
(analyze_stream.py lines 290–415) handles every failure by appending to
`failed_sites` and returning `None`, and the wave-2 loop (lines 426–446)
emits events only for non-`None` results; no `'failed'` event type is
yielded anywhere in `stream_analysis_progress`.  Concretely: a one-URL
batch whose processing fails emits zero `failed` events, the failure
appearing only inside the final `complete` event's `failed_sites` list. -/
theorem c5_counterexample :
    (stream_events benvFail ["https://a.example"]).countP isFailedEv = 0 ∧
    (stream_events benvFail ["https://a.example"]).getLast? =
      some (.completeEv [] [⟨"https://a.example", "boom",
        "Errore generico - verifica manualmente il sito"⟩]) := by
  decide

/-- C5, amended.  For every batch of URLs: each success produces a
`progress`+`result` event pair; each failure produces *no* per-URL event
(there is no `failed` event type — failures are recorded only in the final
payload); exactly one final `complete` event is emitted, last, and it
accounts for all URLs in the batch (sorted successful matches plus failed
entries, each failed entry carrying an error and a non-empty suggestion
string). -/
theorem c5_amended (benv : BatchEnv) (urls : List String) :
    (stream_events benv urls).countP isFailedEv = 0 ∧
    (stream_events benv urls).countP isCompleteEv = 1 ∧
    (stream_events benv urls).getLast? =
      some (.completeEv (sortMatches (wave2_fold benv urls.length urls 1).2.1)
        (wave2_fold benv urls.length urls 1).2.2) ∧
    (sortMatches (wave2_fold benv urls.length urls 1).2.1).length
        + (wave2_fold benv urls.length urls 1).2.2.length = urls.length ∧
    (stream_events benv urls).countP isProgressEv
        = (wave2_fold benv urls.length urls 1).2.1.length ∧
    (stream_events benv urls).countP isResultEv
        = (wave2_fold benv urls.length urls 1).2.1.length ∧
    (wave2_fold benv urls.length urls 1).2.2.all
        (fun f => !(f.suggestion == "")) = true := by
  have h1 := wave1_events_counts benv urls.length urls 0
  have h2 := wave2_fold_spec benv urls.length urls 1
  unfold stream_events
  dsimp only
  refine ⟨?_, ?_, ?_, ?_, ?_, ?_, h2.2.2.2.2.2⟩
  · simp [List.countP_append, List.countP_cons, isFailedEv, h1.1, h2.2.2.2.1]
  · simp [List.countP_append, List.countP_cons, isCompleteEv, h1.2.2.2, h2.2.2.2.2.1]
  · simp [List.getLast?_append, List.getLast?_cons]
  · rw [sortMatches_length]
    exact h2.1
  · simp [List.countP_append, List.countP_cons, isProgressEv, h1.2.1, h2.2.1]
  · simp [List.countP_append, List.countP_cons, isResultEv, h1.2.2.1, h2.2.2.1]
